import Mathlib

/-!
# frontend/script.js — task builder and analysis client

A shallow embedding of `src/frontend/script.js`.  The page (module globals, the
DOM fields the script reads and writes, and the effects it causes: alerts,
console errors, HTTP requests) is an explicit record; every handler is a pure
function on that record.  The host builtins the script calls (`String.trim`,
`String.split`, `parseInt`, `isNaN`, comparison of numbers) are modelled after
ECMAScript; `JSON.parse` is taken as a parameter.
-/

namespace TaskAnalyzer

/-! ## Numbers -/

/-- A JavaScript number, by the value it denotes: `NaN`, the two infinities, or
a finite double (every finite double is a rational).  `-0` is identified with
`0`: the script only compares numbers and tests them for truthiness, and both
zeros behave alike there. -/
inductive JsNum where
  | nan
  | negInf
  | fin (q : ℚ)
  | posInf
deriving DecidableEq

namespace JsNum

/-- The builtin `isNaN` on a number. -/
def isNaN : JsNum → Bool
  | nan => true
  | _ => false

/-- The operator `a < b` on numbers: false as soon as one side is `NaN`. -/
def lt : JsNum → JsNum → Bool
  | nan, _ => false
  | _, nan => false
  | posInf, _ => false
  | _, negInf => false
  | negInf, _ => true
  | _, posInf => true
  | fin a, fin b => decide (a < b)

/-- The operator `a > b`. -/
def gt (a b : JsNum) : Bool := lt b a

/-- The operator `a >= b` on numbers: false as soon as one side is `NaN`. -/
def ge : JsNum → JsNum → Bool
  | nan, _ => false
  | _, nan => false
  | posInf, _ => true
  | _, negInf => true
  | negInf, _ => false
  | _, posInf => false
  | fin a, fin b => decide (b ≤ a)

/-- Truthiness of a number: `NaN` and zero are falsy. -/
def truthy : JsNum → Bool
  | nan => false
  | fin q => decide (q ≠ 0)
  | _ => true

/-- The number is a (finite) integer. -/
def IsInteger (x : JsNum) : Prop := ∃ k : Int, x = fin (k : ℚ)

end JsNum

/-- The 53-bit mantissa of `n` at exponent `e`: the quotient by `2 ^ e`, rounded
to nearest, a tie going to the even quotient. -/
def roundedMantissa (n e : Nat) : Nat :=
  let q := n / 2 ^ e
  let r := n % 2 ^ e
  if 2 ^ (e - 1) < r ∨ (r = 2 ^ (e - 1) ∧ q % 2 = 1) then q + 1 else q

/-- The Number value for a natural number: round to the nearest double, ties
to even mantissa; `none` stands for overflow to infinity.  Naturals below
`2 ^ 53` are doubles already. -/
def roundToDouble (n : Nat) : Option Nat :=
  if n < 2 ^ 53 then some n
  else
    let e := Nat.log2 n - 52
    let v := roundedMantissa n e * 2 ^ e
    if 2 ^ 1024 ≤ v then none else some v

/-! ## Strings -/

/-- Code points of ECMAScript WhiteSpace and LineTerminator: what `trim` and
`parseInt` strip. -/
def whiteSpaceCodes : List Nat :=
  [0x9, 0xA, 0xB, 0xC, 0xD, 0x20, 0xA0, 0x1680,
   0x2000, 0x2001, 0x2002, 0x2003, 0x2004, 0x2005, 0x2006, 0x2007, 0x2008, 0x2009, 0x200A,
   0x2028, 0x2029, 0x202F, 0x205F, 0x3000, 0xFEFF]

/-- The character is stripped by `trim`. -/
def isWhiteSpace (c : Char) : Bool := whiteSpaceCodes.contains c.toNat

/-- The method `trim` on the characters of a string. -/
def trimChars (cs : List Char) : List Char :=
  ((cs.dropWhile isWhiteSpace).reverse.dropWhile isWhiteSpace).reverse

/-- The method `String.prototype.trim`. -/
def trim (s : String) : String := ⟨trimChars s.data⟩

/-- The method `split(",")` on the characters of a string: the pieces between
commas, empty pieces included. -/
def splitComma : List Char → List (List Char)
  | [] => [[]]
  | c :: cs =>
    if c = ',' then [] :: splitComma cs
    else
      match splitComma cs with
      | [] => [[c]]
      | piece :: rest => (c :: piece) :: rest

/-- Value of a run of decimal digits, most significant first. -/
def digitsValue (ds : List Char) : Nat :=
  ds.foldl (fun acc d => 10 * acc + (d.toNat - 48)) 0

/-- The integer that `parseInt(s, 10)` reads from the characters of a string:
leading white space is skipped, one sign is read, and the longest run of
decimal digits that follows is the magnitude; `none` when there is no digit. -/
def parsedInteger (cs : List Char) : Option Int :=
  let s := cs.dropWhile isWhiteSpace
  let negative := s.head? = some '-'
  let s := if s.head? = some '-' ∨ s.head? = some '+' then s.tail else s
  let z := s.takeWhile Char.isDigit
  if z = [] then none
  else if negative then some (-(digitsValue z : Int)) else some (digitsValue z : Int)

/-- The Number value for an integer: its magnitude is rounded to a double and
overflows to the infinity of its sign. -/
def numberOfInt (k : Int) : JsNum :=
  match roundToDouble k.natAbs with
  | none => if k < 0 then JsNum.negInf else JsNum.posInf
  | some m => if k < 0 then JsNum.fin (-(m : ℚ)) else JsNum.fin (m : ℚ)

/-- The builtin `parseInt(s, 10)` on the characters of a string: `NaN` when no
integer is read, else the Number value for the integer read (the exact value
of the digits is rounded, which is what engines do). -/
def parseIntChars (cs : List Char) : JsNum :=
  match parsedInteger cs with
  | none => JsNum.nan
  | some k => numberOfInt k

/-- The builtin `parseInt(s, 10)`. -/
def parseInt (s : String) : JsNum := parseIntChars s.data

/-! ## Data model -/

/-- A task built from the form (the object literal `newTask`).  The id is the
value of the counter, kept as a natural number: the counter only counts up from
1 and stays exact far beyond any list that fits in memory. -/
structure Task where
  id : Nat
  title : String
  due_date : Option String
  importance : JsNum
  estimated_hours : JsNum
  dependencies : List JsNum
deriving DecidableEq

/-- A scored task as the backend returns it.  Every field may be missing
(`none` stands for an absent or `null` member). -/
structure ScoredTask where
  title : Option String
  score : Option JsNum
  due_date : Option String
  importance : Option JsNum
  estimated_hours : Option JsNum
  dependencies : Option (List JsNum)
  explanation : Option String
deriving DecidableEq

/-- One `div.task-card` appended by `renderResults`.  Text nodes that hold only
strings are kept as text; where a number is interpolated the number itself is
kept, `none` standing for the fallback `"?"`. -/
structure Card where
  title : String
  badgeClass : String
  badgeScore : Option JsNum
  due : String
  importance : Option JsNum
  hours : Option JsNum
  dependencies : String
  explanation : String
deriving DecidableEq

/-- A child of `#resultsContainer`. -/
inductive Node where
  | placeholder (text : String)
  | card (c : Card)
deriving DecidableEq

/-- A JSON value, as `JSON.parse` returns it. -/
inductive Json where
  | null
  | bool (b : Bool)
  | num (x : JsNum)
  | str (s : String)
  | arr (items : List Json)
  | obj (members : List (String × Json))

/-- The `tasks` member of the request body: the value parsed from the text
area, or a copy of the builder list. -/
inductive TaskList where
  | parsed (v : Json)
  | built (ts : List Task)

/-- A request issued through `fetch`; `strategy` and `tasks` are the members of
its JSON body. -/
structure Request where
  method : String
  url : String
  contentType : String
  strategy : String
  tasks : TaskList

/-- What `await response.json()` yields, as far as the script looks into it:
JSON `null`, or an array whose entries are `null` (`none`) or objects read as
scored tasks. -/
inductive Payload where
  | null
  | array (entries : List (Option ScoredTask))
deriving DecidableEq

/-- The body of a response: text that is not JSON (`response.json()` rejects),
or a JSON payload. -/
inductive Body where
  | notJson
  | json (data : Payload)
deriving DecidableEq

/-- How `fetch` settles: it rejects (network failure), or resolves with a
status and a body. -/
inductive Reply where
  | networkError
  | http (status : Nat) (body : Body)
deriving DecidableEq

/-- The property `response.ok`: the status is in the range 200-299. -/
def Reply.ok (status : Nat) : Bool := decide (200 ≤ status ∧ status ≤ 299)

/-- An error passed to `console.error`. -/
inductive LoggedError where
  | syntaxError
  | typeError
  | networkError
  | serverError (status : Nat)
deriving DecidableEq

/-- How one click on the analyze button ends. -/
inductive Outcome where
  | invalidInput
  | noInput
  | serverError
  | rendered
deriving DecidableEq

/-- The page: the two module globals, the value of every field the script
reads, the text and children of the elements it writes, and the effects it has
caused so far (alerts shown, errors logged, requests sent), oldest first.
`builtTasksInfo` is `none` when the page has no such element. -/
structure Page where
  builtTasks : List Task
  nextLocalId : Nat
  formTitle : String
  formDueDate : String
  formImportance : String
  formHours : String
  formDependencies : String
  taskInput : String
  strategySelect : String
  builtTasksInfo : Option String
  statusMessage : String
  resultsContainer : List Node
  alerts : List String
  console : List LoggedError
  requests : List Request

/-- The constant `API_BASE`. -/
def API_BASE : String := "http://127.0.0.1:8000/api/tasks"

/-! ## Task builder -/

/-- The function `setStatus`. -/
def setStatus (message : String) (p : Page) : Page :=
  { p with statusMessage := message }

/-- The function `updateBuiltTasksInfo`. -/
def updateBuiltTasksInfo (p : Page) : Page :=
  match p.builtTasksInfo with
  | none => p
  | some _ =>
    if p.builtTasks.length = 0 then
      { p with builtTasksInfo := some "No tasks added from form yet." }
    else
      { p with builtTasksInfo := some ("Form tasks in memory: " ++ toString p.builtTasks.length ++
          " (they will be analyzed if JSON area is empty).") }

/-- The importance stored for a value of `#formImportance`. -/
def readImportance (value : String) : JsNum :=
  let importance := if value ≠ "" then parseInt value else JsNum.fin 5
  if importance.isNaN || importance.lt (JsNum.fin 1) || importance.gt (JsNum.fin 10) then
    JsNum.fin 5
  else importance

/-- The estimated hours stored for a value of `#formHours`. -/
def readHours (value : String) : JsNum :=
  let estimated_hours := if value ≠ "" then parseInt value else JsNum.fin 1
  if estimated_hours.isNaN || estimated_hours.lt (JsNum.fin 1) then JsNum.fin 1
  else estimated_hours

/-- The dependency list stored for a value of `#formDependencies`. -/
def readDependencies (value : String) : List JsNum :=
  let rawDeps := trimChars value.data
  if rawDeps.length > 0 then
    (((splitComma rawDeps).map trimChars).filter (fun s => decide (s.length > 0))).map parseIntChars
      |>.filter (fun n => !n.isNaN)
  else []

/-- The handler `addTaskFromForm`. -/
def addTaskFromForm (p : Page) : Page :=
  let title := trim p.formTitle
  if title = "" then
    { p with alerts := p.alerts ++ ["Title is required."] }
  else
    let newTask : Task :=
      { id := p.nextLocalId
        title := title
        due_date := if p.formDueDate ≠ "" then some p.formDueDate else none
        importance := readImportance p.formImportance
        estimated_hours := readHours p.formHours
        dependencies := readDependencies p.formDependencies }
    updateBuiltTasksInfo
      { p with
        nextLocalId := p.nextLocalId + 1
        builtTasks := p.builtTasks ++ [newTask]
        formTitle := ""
        formImportance := ""
        formHours := ""
        formDependencies := "" }

/-- The values a user has typed into the form before pressing the add button. -/
structure FormValues where
  title : String
  dueDate : String
  importance : String
  hours : String
  dependencies : String

/-- The user types `f` into the form. -/
def Page.fill (p : Page) (f : FormValues) : Page :=
  { p with
    formTitle := f.title
    formDueDate := f.dueDate
    formImportance := f.importance
    formHours := f.hours
    formDependencies := f.dependencies }

/-- One call of addTask: the form is filled and the button pressed. -/
def addTask (p : Page) (f : FormValues) : Page := addTaskFromForm (p.fill f)

/-- The call is accepted: the title is not blank. -/
def FormValues.accepted (f : FormValues) : Bool := decide (trim f.title ≠ "")

/-- A sequence of addTask calls, in order. -/
def addTasks (p : Page) (fs : List FormValues) : Page := fs.foldl addTask p

/-! ## Rendering -/

/-- The function `getPriorityBadgeClass`. -/
def getPriorityBadgeClass (score : JsNum) : String :=
  if score.ge (JsNum.fin 120) then "badge-high"
  else if score.ge (JsNum.fin 80) then "badge-medium"
  else "badge-low"

/-- The expression `a || b` on an optional string: the empty string is falsy. -/
def orElseText (a : Option String) (b : String) : String :=
  match a with
  | some s => if s ≠ "" then s else b
  | none => b

/-- The expression `task.score || 0`. -/
def scoreOrZero (score : Option JsNum) : JsNum :=
  match score with
  | some x => if x.truthy then x else JsNum.fin 0
  | none => JsNum.fin 0

/-- The card built by the callback of `tasks.forEach` for `task` at `index`. -/
def renderCard (task : ScoredTask) (index : Nat) : Card :=
  { title := toString (index + 1) ++ ". " ++ orElseText task.title "Untitled Task"
    badgeClass := "badge " ++ getPriorityBadgeClass (scoreOrZero task.score)
    badgeScore := task.score
    due := "Due: " ++ orElseText task.due_date "N/A"
    importance := task.importance
    hours := task.estimated_hours
    dependencies := "Dependencies: " ++
      toString (match task.dependencies with
        | some ds => ds.length
        | none => 0)
    explanation := orElseText task.explanation "No explanation provided." }

/-- The loop `tasks.forEach` from position `index` on: each entry appends its
card; a `null` entry throws a TypeError (reading `task.title`) and the loop
stops there, the cards appended so far staying in the container. -/
def forEachCard : List (Option ScoredTask) → Nat → List Node → List Node × Option LoggedError
  | [], _, container => (container, none)
  | none :: _, _, container => (container, some LoggedError.typeError)
  | some task :: rest, index, container =>
    forEachCard rest (index + 1) (container ++ [Node.card (renderCard task index)])

/-- The function `renderResults` on the children of `#resultsContainer`: the
new children, and the error thrown if any. -/
def renderResults (tasks : Payload) (_container : List Node) : List Node × Option LoggedError :=
  let container : List Node := []
  match tasks with
  | Payload.null => (container ++ [Node.placeholder "No tasks to display."], none)
  | Payload.array entries =>
    if entries.length = 0 then (container ++ [Node.placeholder "No tasks to display."], none)
    else forEachCard entries 0 container

/-! ## Analysis client -/

/-- The catch block of `handleAnalyzeClick`. -/
def analyzeFailed (error : LoggedError) (p : Page) : Page × Outcome :=
  (setStatus "Error while analyzing tasks."
    { p with
      console := p.console ++ [error]
      alerts := p.alerts ++ ["Failed to analyze tasks. Check if the Django server is running."] },
   Outcome.serverError)

/-- The strategy key sent for a value of `#strategySelect`. -/
def strategyKey (strategyValue : String) : String :=
  if strategyValue = "quick" then "fastest"
  else if strategyValue = "impact" then "high_impact"
  else if strategyValue = "deadline" then "deadline"
  else "smart_balance"

/-- The rest of the try block of `handleAnalyzeClick` once `fetch` has settled,
and its catch block: a rejected fetch, a status outside 200-299, a body that is
not JSON, and an error thrown while rendering or while reading `data.length`
all end in the catch block. -/
def settle (reply : Reply) (strategyValue : String) (p : Page) : Page × Outcome :=
  match reply with
  | Reply.networkError => analyzeFailed LoggedError.networkError p
  | Reply.http status body =>
    if !Reply.ok status then analyzeFailed (LoggedError.serverError status) p
    else
      match body with
      | Body.notJson => analyzeFailed LoggedError.syntaxError p
      | Body.json data =>
        match renderResults data p.resultsContainer with
        | (container, some error) => analyzeFailed error { p with resultsContainer := container }
        | (container, none) =>
          match data with
          | Payload.null =>
            analyzeFailed LoggedError.typeError { p with resultsContainer := container }
          | Payload.array entries =>
            (setStatus ("Analyzed " ++ toString entries.length ++ " task(s) using strategy: " ++
              strategyValue ++ ".") { p with resultsContainer := container }, Outcome.rendered)

/-- The part of `handleAnalyzeClick` that runs once `tasks` is chosen: the
strategy is mapped, the status set, the request sent, and the reply handled. -/
def dispatch (reply : Reply) (tasks : TaskList) (p : Page) : Page × Outcome :=
  let strategyValue := p.strategySelect
  let strategy := strategyKey strategyValue
  let p := setStatus "Analyzing tasks..." p
  let p := { p with requests := p.requests ++
    [{ method := "POST", url := API_BASE ++ "/analyze/", contentType := "application/json",
       strategy := strategy, tasks := tasks }] }
  settle reply strategyValue p

/-- The handler `handleAnalyzeClick`, given the host's `JSON.parse` (`none`
for a thrown SyntaxError) and the way the request settles. -/
def handleAnalyzeClick (jsonParse : String → Option Json) (reply : Reply) (p : Page) :
    Page × Outcome :=
  let rawInput := trim p.taskInput
  if rawInput ≠ "" then
    match jsonParse rawInput with
    | none =>
      ({ p with
         console := p.console ++ [LoggedError.syntaxError]
         alerts := p.alerts ++ ["Invalid JSON. Please check your format."] },
       Outcome.invalidInput)
    | some tasks => dispatch reply (TaskList.parsed tasks) p
  else if p.builtTasks.length > 0 then
    dispatch reply (TaskList.built p.builtTasks) p
  else
    ({ p with alerts := p.alerts ++
        ["Please either paste JSON tasks or add at least one task using the form."] },
     Outcome.noInput)

/-! ## The specification's wording of numerals and of the dependency field -/

/-- The natural number a run of decimal digits denotes, place by place: each
digit counts for its value times the power of ten of its place. -/
def decimalValue : List Char → Nat
  | [] => 0
  | d :: ds => (d.toNat - 48) * 10 ^ ds.length + decimalValue ds

/-- The integer a numeral denotes: the text must be an optional sign followed
by one or more decimal digits and nothing else; any other text is not numeric
(`none`). -/
def integerOfNumeral (cs : List Char) : Option Int :=
  match cs with
  | '-' :: ds =>
    if ds ≠ [] ∧ ds.all Char.isDigit = true then some (-(decimalValue ds : Int)) else none
  | '+' :: ds =>
    if ds ≠ [] ∧ ds.all Char.isDigit = true then some (decimalValue ds : Int) else none
  | ds =>
    if ds ≠ [] ∧ ds.all Char.isDigit = true then some (decimalValue ds : Int) else none

/-- The non-empty trimmed pieces of a comma-separated field, in order. -/
def trimmedPieces (value : String) : List (List Char) :=
  ((splitComma value.data).map trimChars).filter (fun piece => decide (piece ≠ []))

/-- The dependency list as the specification words it: the field is split on
commas, each piece is trimmed, the empty pieces are dropped, each remaining
piece is parsed as an integer, the pieces that are not numeric are dropped, and
the integers are kept in order. -/
def dependencyList (value : String) : List Int :=
  (trimmedPieces value).filterMap integerOfNumeral

/-- The text leads with the integer `k`, the way `parseInt` reads one: white
space, then an optional sign, then one or more decimal digits that denote the
magnitude of `k`; what follows the digits does not start with a digit and is
otherwise free. -/
def LeadsWithInteger (cs : List Char) (k : Int) : Prop :=
  ∃ ws sign ds rest, cs = ws ++ (sign ++ (ds ++ rest)) ∧
    (∀ c ∈ ws, isWhiteSpace c = true) ∧
    (sign = [] ∨ sign = ['-'] ∨ sign = ['+']) ∧
    ds ≠ [] ∧ (∀ c ∈ ds, c.isDigit = true) ∧
    (∀ c, rest.head? = some c → c.isDigit = false) ∧
    k = if sign = ['-'] then -(decimalValue ds : Int) else (decimalValue ds : Int)

/-- The number `x` stands for the integer `k` as a double does: it is `k`
itself when the magnitude of `k` is below `2 ^ 53`; otherwise it is an integer
within a relative error of `2 ^ -53` of `k`, or the infinity of the sign of `k`
when the magnitude of `k` is at least `2 ^ 1023`. -/
def IsNumberFor (k : Int) (x : JsNum) : Prop :=
  (k.natAbs < 2 ^ 53 ∧ x = JsNum.fin (k : ℚ)) ∨
    (2 ^ 53 ≤ k.natAbs ∧
      ((x = JsNum.posInf ∧ 2 ^ 1023 ≤ k) ∨ (x = JsNum.negInf ∧ k ≤ -2 ^ 1023) ∨
        ∃ m : Int, x = JsNum.fin (m : ℚ) ∧ 2 ^ 53 * |m - k| ≤ |k|))

/-- The numbers read from a list of pieces, in order: a piece that leads with
no integer gives nothing, a piece that leads with an integer gives a number
standing for that integer. -/
inductive ReadsAs : List (List Char) → List JsNum → Prop
  | nil : ReadsAs [] []
  | drop (piece : List Char) (pieces : List (List Char)) (numbers : List JsNum) :
      (∀ k, ¬ LeadsWithInteger piece k) → ReadsAs pieces numbers →
      ReadsAs (piece :: pieces) numbers
  | keep (piece : List Char) (k : Int) (x : JsNum) (pieces : List (List Char))
      (numbers : List JsNum) :
      LeadsWithInteger piece k → IsNumberFor k x → ReadsAs pieces numbers →
      ReadsAs (piece :: pieces) (x :: numbers)

/-! ## Sample pages -/

/-- The page once loaded: nothing built, every field empty, nothing shown. -/
def Page.initial : Page :=
  { builtTasks := []
    nextLocalId := 1
    formTitle := ""
    formDueDate := ""
    formImportance := ""
    formHours := ""
    formDependencies := ""
    taskInput := ""
    strategySelect := ""
    builtTasksInfo := some "No tasks added from form yet."
    statusMessage := ""
    resultsContainer := []
    alerts := []
    console := []
    requests := [] }

/-- A filled form. -/
def reportForm : Page :=
  { Page.initial with
    formTitle := "Write report"
    formDueDate := "2025-12-01"
    formImportance := "7"
    formHours := "3"
    formDependencies := "1, 2,,x,3" }

/-- The numeral of 400 digits: a one followed by 399 zeros. -/
def hugeNumeral : String := ⟨'1' :: List.replicate 399 '0'⟩

/-- A form whose hours field holds the numeral of 400 digits. -/
def hugeHoursForm : Page :=
  { Page.initial with formTitle := "Plan", formHours := hugeNumeral }

/-- A form whose title is white space only, the other fields filled. -/
def blankTitleForm : Page :=
  { Page.initial with
    formTitle := "  \t"
    formDueDate := "2025-12-01"
    formImportance := "7"
    formHours := "3"
    formDependencies := "1,2" }

/-- A form whose importance field holds a digit followed by letters. -/
def looseImportanceForm : Page :=
  { Page.initial with formTitle := "Plan", formImportance := "7abc" }

/-- A form whose dependencies field holds a numeral and a numeral followed by
letters. -/
def looseDependenciesForm : Page :=
  { Page.initial with formTitle := "Plan", formDependencies := "7, 12abc" }

/-- A form whose dependencies field holds the numeral of 400 digits. -/
def hugeDependencyForm : Page :=
  { Page.initial with formTitle := "Plan", formDependencies := hugeNumeral }

/-- A form as typed. -/
def FormValues.titled (title : String) : FormValues :=
  { title := title, dueDate := "", importance := "", hours := "", dependencies := "" }

/-- A task as the builder stores it. -/
def sampleTask : Task :=
  { id := 1, title := "A", due_date := none, importance := JsNum.fin 5,
    estimated_hours := JsNum.fin 1, dependencies := [] }

/-- A page whose text area holds one blank, with one task in the builder list. -/
def blankTextPage : Page :=
  { Page.initial with taskInput := " ", builtTasks := [sampleTask], nextLocalId := 2 }

/-- A page whose text area holds a tab and a line break, with one task in the
builder list. -/
def blankLinesPage : Page :=
  { Page.initial with taskInput := "\t\n", builtTasks := [sampleTask], nextLocalId := 2 }

/-- The scored task `{title: "A", score: 150}`. -/
def scoredA : ScoredTask :=
  { title := some "A", score := some (JsNum.fin 150), due_date := none, importance := none,
    estimated_hours := none, dependencies := none, explanation := none }

/-- The scored task `{score: 50}`. -/
def scoredUntitled : ScoredTask :=
  { title := none, score := some (JsNum.fin 50), due_date := none, importance := none,
    estimated_hours := none, dependencies := none, explanation := none }

/-- A page showing the placeholder of an earlier render, with one task in the
builder list and an empty text area. -/
def shownPage : Page :=
  { Page.initial with
    builtTasks := [sampleTask]
    nextLocalId := 2
    resultsContainer := [Node.placeholder "No tasks to display."] }

/-- The cards of `tasks`, the first one at position `index`. -/
def cardsFrom : Nat → List ScoredTask → List Node
  | _, [] => []
  | index, task :: rest => Node.card (renderCard task index) :: cardsFrom (index + 1) rest

/-- A page with one task in the builder list and the strategy "quick" selected. -/
def quickPage : Page :=
  { Page.initial with builtTasks := [sampleTask], nextLocalId := 2, strategySelect := "quick" }

/-- A page whose text area holds `[]`. -/
def pastedPage : Page :=
  { Page.initial with taskInput := "  [] " }

/-- A stand-in for `JSON.parse` that reads the text `[]` only. -/
def parseEmptyArray (text : String) : Option Json :=
  if text = "[]" then some (Json.arr []) else none

/-! ## Facts about the builtins -/

theorem roundedMantissa_ge (n e : Nat) : n / 2 ^ e ≤ roundedMantissa n e := by
  unfold roundedMantissa
  dsimp only
  split <;> omega

theorem roundedMantissa_le (n e : Nat) : roundedMantissa n e ≤ n / 2 ^ e + 1 := by
  unfold roundedMantissa
  dsimp only
  split <;> omega

theorem roundToDouble_small (n : Nat) (h : n < 2 ^ 53) : roundToDouble n = some n := by
  unfold roundToDouble
  rw [if_pos h]

theorem roundToDouble_large (n m : Nat) (h : 2 ^ 53 ≤ n) (hm : roundToDouble n = some m) :
    2 ^ 53 ≤ m := by
  have hn : ¬ n < 2 ^ 53 := Nat.not_lt.2 h
  have hn0 : n ≠ 0 := by
    intro h0
    rw [h0] at h
    exact absurd h (by norm_num)
  have hlog : 53 ≤ Nat.log2 n := (Nat.le_log2 hn0).2 h
  have hpow : 2 ^ Nat.log2 n ≤ n := Nat.log2_self_le hn0
  unfold roundToDouble at hm
  rw [if_neg hn] at hm
  dsimp only at hm
  split at hm
  · exact absurd hm (by simp)
  · injection hm with hm
    subst hm
    have he : Nat.log2 n = 52 + (Nat.log2 n - 52) := by omega
    have hq : 2 ^ 52 ≤ n / 2 ^ (Nat.log2 n - 52) := by
      rw [Nat.le_div_iff_mul_le (Nat.two_pow_pos _), ← pow_add, ← he]
      exact hpow
    have h2 : 2 ^ 1 ≤ 2 ^ (Nat.log2 n - 52) :=
      Nat.pow_le_pow_right (by norm_num) (by omega)
    have hq' : 2 ^ 52 ≤ roundedMantissa n (Nat.log2 n - 52) :=
      Nat.le_trans hq (roundedMantissa_ge n _)
    calc 2 ^ 53 = 2 ^ 52 * 2 ^ 1 := by norm_num
      _ ≤ _ := Nat.mul_le_mul hq' h2

theorem roundToDouble_finite (n : Nat) (h : n < 2 ^ 1023) : ∃ m, roundToDouble n = some m := by
  by_cases hs : n < 2 ^ 53
  · exact ⟨n, roundToDouble_small n hs⟩
  · have h53 : 2 ^ 53 ≤ n := Nat.not_lt.1 hs
    have hn0 : n ≠ 0 := by
      intro h0
      rw [h0] at h53
      exact absurd h53 (by norm_num)
    have hlog : 53 ≤ Nat.log2 n := (Nat.le_log2 hn0).2 h53
    have hlog2 : Nat.log2 n < 1023 := (Nat.log2_lt hn0).2 h
    have hlt : n < 2 ^ (Nat.log2 n + 1) := Nat.lt_log2_self
    have he : Nat.log2 n + 1 = 53 + (Nat.log2 n - 52) := by omega
    have hq : n / 2 ^ (Nat.log2 n - 52) < 2 ^ 53 := by
      rw [Nat.div_lt_iff_lt_mul (Nat.two_pow_pos _), ← pow_add, ← he]
      exact hlt
    have hq' : roundedMantissa n (Nat.log2 n - 52) ≤ 2 ^ 53 :=
      Nat.le_trans (roundedMantissa_le n _) hq
    have hpe : 2 ^ (Nat.log2 n - 52) ≤ 2 ^ 970 :=
      Nat.pow_le_pow_right (by norm_num) (by omega)
    have hv : ¬ 2 ^ 1024 ≤ roundedMantissa n (Nat.log2 n - 52) * 2 ^ (Nat.log2 n - 52) := by
      apply Nat.not_le.2
      calc roundedMantissa n (Nat.log2 n - 52) * 2 ^ (Nat.log2 n - 52)
          ≤ 2 ^ 53 * 2 ^ 970 := Nat.mul_le_mul hq' hpe
        _ = 2 ^ 1023 := by rw [← pow_add]
        _ < 2 ^ 1024 := Nat.pow_lt_pow_right (by norm_num) (by norm_num)
    unfold roundToDouble
    rw [if_neg hs]
    dsimp only
    rw [if_neg hv]
    exact ⟨_, rfl⟩

theorem numberOfInt_exact (k : Int) (h : k.natAbs < 2 ^ 53) :
    numberOfInt k = JsNum.fin (k : ℚ) := by
  unfold numberOfInt
  rw [roundToDouble_small _ h]
  dsimp only
  by_cases hk : k < 0
  · rw [if_pos hk]
    congr 1
    have h1 : (k.natAbs : Int) = -k := by omega
    have h2 : ((k.natAbs : Int) : ℚ) = ((-k : Int) : ℚ) := by rw [h1]
    rw [Int.cast_natCast, Int.cast_neg] at h2
    rw [h2, neg_neg]
  · rw [if_neg hk]
    congr 1
    have h1 : (k.natAbs : Int) = k := by omega
    have h2 : ((k.natAbs : Int) : ℚ) = (k : ℚ) := by rw [h1]
    rw [Int.cast_natCast] at h2
    exact h2

theorem numberOfInt_big (k : Int) (h : 2 ^ 53 ≤ k) :
    numberOfInt k = JsNum.posInf ∨ ∃ m : Nat, 2 ^ 53 ≤ m ∧ numberOfInt k = JsNum.fin (m : ℚ) := by
  have hk : ¬ k < 0 := by
    have : (0 : Int) ≤ 2 ^ 53 := by norm_num
    omega
  have habs : 2 ^ 53 ≤ k.natAbs := by
    have h1 : ((2 ^ 53 : Nat) : Int) ≤ (k.natAbs : Int) := by
      have : (k.natAbs : Int) = k := by omega
      rw [this]
      exact_mod_cast h
    exact_mod_cast h1
  unfold numberOfInt
  cases hr : roundToDouble k.natAbs with
  | none =>
    left
    simp [hk]
  | some m =>
    right
    exact ⟨m, roundToDouble_large _ _ habs hr, by simp [hk]⟩

theorem numberOfInt_small (k : Int) (h : k ≤ -2 ^ 53) :
    numberOfInt k = JsNum.negInf ∨
      ∃ m : Nat, 2 ^ 53 ≤ m ∧ numberOfInt k = JsNum.fin (-(m : ℚ)) := by
  have hk : k < 0 := by
    have : (0 : Int) < 2 ^ 53 := by norm_num
    omega
  have habs : 2 ^ 53 ≤ k.natAbs := by
    have h1 : ((2 ^ 53 : Nat) : Int) ≤ (k.natAbs : Int) := by
      have : (k.natAbs : Int) = -k := by omega
      rw [this]
      have h2 : ((2 ^ 53 : Nat) : Int) = 2 ^ 53 := by norm_cast
      omega
    exact_mod_cast h1
  unfold numberOfInt
  cases hr : roundToDouble k.natAbs with
  | none =>
    left
    simp [hk]
  | some m =>
    right
    exact ⟨m, roundToDouble_large _ _ habs hr, by simp [hk]⟩

theorem numberOfInt_isNaN (k : Int) : (numberOfInt k).isNaN = false := by
  unfold numberOfInt
  cases roundToDouble k.natAbs <;> dsimp only <;> split <;> rfl

/-- An integer is within 53 bits, at least `2 ^ 53`, or at most `-2 ^ 53`. -/
theorem int_trichotomy (k : Int) : k.natAbs < 2 ^ 53 ∨ 2 ^ 53 ≤ k ∨ k ≤ -2 ^ 53 := by
  have h2 : ((2 ^ 53 : Nat) : Int) = 2 ^ 53 := by norm_cast
  by_cases h : k.natAbs < 2 ^ 53
  · exact Or.inl h
  · have h1 : ((2 ^ 53 : Nat) : Int) ≤ (k.natAbs : Int) := by exact_mod_cast Nat.not_lt.1 h
    omega

theorem parsedInteger_nil : parsedInteger [] = none := by decide

theorem parsedInteger_empty (v : String) (h : v = "") : parsedInteger v.data = none := by
  subst h
  decide

theorem parseInt_of_none (v : String) (h : parsedInteger v.data = none) :
    parseInt v = JsNum.nan := by
  simp [parseInt, parseIntChars, h]

theorem parseInt_of_some (v : String) (k : Int) (h : parsedInteger v.data = some k) :
    parseInt v = numberOfInt k := by
  simp [parseInt, parseIntChars, h]

theorem readImportance_of_none (v : String) (h : parsedInteger v.data = none) :
    readImportance v = JsNum.fin 5 := by
  unfold readImportance
  by_cases hv : v = ""
  · simp [hv, JsNum.isNaN, JsNum.lt, JsNum.gt]
  · simp [hv, parseInt_of_none v h, JsNum.isNaN]

theorem readImportance_of_some (v : String) (k : Int) (h : parsedInteger v.data = some k) :
    readImportance v = if 1 ≤ k ∧ k ≤ 10 then JsNum.fin (k : ℚ) else JsNum.fin 5 := by
  have hv : v ≠ "" := by
    intro hv
    rw [parsedInteger_empty v hv] at h
    exact absurd h (by simp)
  unfold readImportance
  rw [if_pos hv, parseInt_of_some v k h]
  dsimp only
  rcases int_trichotomy k with hk | hk | hk
  · rw [numberOfInt_exact k hk]
    by_cases h1 : 1 ≤ k ∧ k ≤ 10
    · have h1q : ¬ ((k : ℚ) < 1) := by
        have : ((1 : Int) : ℚ) ≤ (k : ℚ) := Int.cast_le.2 h1.1
        push_cast at this
        linarith
      have h2q : ¬ ((10 : ℚ) < (k : ℚ)) := by
        have : (k : ℚ) ≤ ((10 : Int) : ℚ) := Int.cast_le.2 h1.2
        push_cast at this
        linarith
      simp [JsNum.isNaN, JsNum.lt, JsNum.gt, h1, h1q, h2q]
    · have h3 : (k : ℚ) < 1 ∨ (10 : ℚ) < (k : ℚ) := by
        by_cases h4 : 1 ≤ k
        · right
          have h5 : 10 < k := by
            by_contra h6
            exact h1 ⟨h4, by omega⟩
          have : ((10 : Int) : ℚ) < (k : ℚ) := Int.cast_lt.2 h5
          push_cast at this
          exact this
        · left
          have h5 : k < 1 := by omega
          have : (k : ℚ) < ((1 : Int) : ℚ) := Int.cast_lt.2 h5
          push_cast at this
          exact this
      rw [if_neg h1]
      rcases h3 with h3 | h3 <;> simp [JsNum.isNaN, JsNum.lt, JsNum.gt, h3]
  · have h1 : ¬ (1 ≤ k ∧ k ≤ 10) := by
      have : (10 : Int) < 2 ^ 53 := by norm_num
      omega
    rw [if_neg h1]
    rcases numberOfInt_big k hk with hinf | ⟨m, hm, hfin⟩
    · rw [hinf]
      simp [JsNum.isNaN, JsNum.lt, JsNum.gt]
    · rw [hfin]
      have h10 : (10 : ℚ) < (m : ℚ) := by
        have h11 : 10 < m := by
          have : 10 < 2 ^ 53 := by norm_num
          omega
        exact_mod_cast h11
      simp [JsNum.isNaN, JsNum.lt, JsNum.gt, h10]
  · have h1 : ¬ (1 ≤ k ∧ k ≤ 10) := by
      have : (0 : Int) < 2 ^ 53 := by norm_num
      omega
    rw [if_neg h1]
    rcases numberOfInt_small k hk with hinf | ⟨m, hm, hfin⟩
    · rw [hinf]
      simp [JsNum.isNaN, JsNum.lt, JsNum.gt]
    · rw [hfin]
      have h10 : -(m : ℚ) < 1 := by
        have h11 : (0 : ℚ) ≤ (m : ℚ) := Nat.cast_nonneg m
        linarith
      simp [JsNum.isNaN, JsNum.lt, JsNum.gt, h10]

theorem readHours_of_none (v : String) (h : parsedInteger v.data = none) :
    readHours v = JsNum.fin 1 := by
  unfold readHours
  by_cases hv : v = ""
  · simp [hv, JsNum.isNaN, JsNum.lt]
  · simp [hv, parseInt_of_none v h, JsNum.isNaN]

theorem readHours_of_lt_one (v : String) (k : Int) (h : parsedInteger v.data = some k)
    (hk : k < 1) : readHours v = JsNum.fin 1 := by
  have hv : v ≠ "" := by
    intro hv
    rw [parsedInteger_empty v hv] at h
    exact absurd h (by simp)
  unfold readHours
  rw [if_pos hv, parseInt_of_some v k h]
  dsimp only
  rcases int_trichotomy k with hb | hb | hb
  · rw [numberOfInt_exact k hb]
    have h1 : (k : ℚ) < 1 := by
      have : (k : ℚ) < ((1 : Int) : ℚ) := Int.cast_lt.2 hk
      push_cast at this
      exact this
    simp [JsNum.isNaN, JsNum.lt, h1]
  · have : (1 : Int) < 2 ^ 53 := by norm_num
    omega
  · rcases numberOfInt_small k hb with hinf | ⟨m, _, hfin⟩
    · rw [hinf]
      simp [JsNum.isNaN, JsNum.lt]
    · rw [hfin]
      have h10 : -(m : ℚ) < 1 := by
        have h11 : (0 : ℚ) ≤ (m : ℚ) := Nat.cast_nonneg m
        linarith
      simp [JsNum.isNaN, JsNum.lt, h10]

theorem readHours_of_ge_one (v : String) (k : Int) (h : parsedInteger v.data = some k)
    (hk : 1 ≤ k) : readHours v = numberOfInt k := by
  have hv : v ≠ "" := by
    intro hv
    rw [parsedInteger_empty v hv] at h
    exact absurd h (by simp)
  unfold readHours
  rw [if_pos hv, parseInt_of_some v k h]
  dsimp only
  rcases int_trichotomy k with hb | hb | hb
  · rw [numberOfInt_exact k hb]
    have h1 : ¬ ((k : ℚ) < 1) := by
      have : ((1 : Int) : ℚ) ≤ (k : ℚ) := Int.cast_le.2 hk
      push_cast at this
      linarith
    simp [JsNum.isNaN, JsNum.lt, h1]
  · rcases numberOfInt_big k hb with hinf | ⟨m, hm, hfin⟩
    · rw [hinf]
      simp [JsNum.isNaN, JsNum.lt]
    · rw [hfin]
      have h10 : ¬ ((m : ℚ) < 1) := by
        have h11 : 1 ≤ m := by
          have : 1 ≤ 2 ^ 53 := by norm_num
          omega
        have : ((1 : Nat) : ℚ) ≤ (m : ℚ) := Nat.cast_le.2 h11
        push_cast at this
        linarith
      simp [JsNum.isNaN, JsNum.lt, h10]
  · have : (0 : Int) < 2 ^ 53 := by norm_num
    omega

/-- The number stored for an integer `k ≥ 1` is a positive integer or
positive infinity, and it is `k` itself below `2 ^ 53`. -/
theorem numberOfInt_pos (k : Int) (hk : 1 ≤ k) :
    numberOfInt k = JsNum.posInf ∨ ∃ j : Int, 1 ≤ j ∧ numberOfInt k = JsNum.fin (j : ℚ) := by
  rcases int_trichotomy k with hb | hb | hb
  · exact Or.inr ⟨k, hk, numberOfInt_exact k hb⟩
  · rcases numberOfInt_big k hb with hinf | ⟨m, hm, hfin⟩
    · exact Or.inl hinf
    · refine Or.inr ⟨(m : Int), ?_, ?_⟩
      · have : 1 ≤ 2 ^ 53 := by norm_num
        omega
      · rw [hfin, Int.cast_natCast]
  · have : (0 : Int) < 2 ^ 53 := by norm_num
    omega

theorem numberOfInt_finite (k : Int) (h0 : 0 ≤ k) (hk : k < 2 ^ 1023) :
    ∃ m : Nat, numberOfInt k = JsNum.fin (m : ℚ) := by
  have habs : k.natAbs < 2 ^ 1023 := by
    have h1 : (k.natAbs : Int) < ((2 ^ 1023 : Nat) : Int) := by
      have : (k.natAbs : Int) = k := by omega
      rw [this]
      exact_mod_cast hk
    exact_mod_cast h1
  obtain ⟨m, hm⟩ := roundToDouble_finite _ habs
  have hneg : ¬ k < 0 := by omega
  exact ⟨m, by simp [numberOfInt, hm, hneg]⟩

theorem updateBuiltTasksInfo_builtTasks (p : Page) :
    (updateBuiltTasksInfo p).builtTasks = p.builtTasks := by
  unfold updateBuiltTasksInfo
  split
  · rfl
  · split <;> rfl

theorem updateBuiltTasksInfo_nextLocalId (p : Page) :
    (updateBuiltTasksInfo p).nextLocalId = p.nextLocalId := by
  unfold updateBuiltTasksInfo
  split
  · rfl
  · split <;> rfl

theorem updateBuiltTasksInfo_alerts (p : Page) :
    (updateBuiltTasksInfo p).alerts = p.alerts := by
  unfold updateBuiltTasksInfo
  split
  · rfl
  · split <;> rfl

theorem addTaskFromForm_accepted_alerts (p : Page) (h : trim p.formTitle ≠ "") :
    (addTaskFromForm p).alerts = p.alerts := by
  unfold addTaskFromForm
  dsimp only
  rw [if_neg h, updateBuiltTasksInfo_alerts]

/-- An accepted call appends exactly the task read from the form and advances
the counter. -/
theorem addTaskFromForm_accepted (p : Page) (h : trim p.formTitle ≠ "") :
    (addTaskFromForm p).builtTasks = p.builtTasks ++
        [{ id := p.nextLocalId
           title := trim p.formTitle
           due_date := if p.formDueDate ≠ "" then some p.formDueDate else none
           importance := readImportance p.formImportance
           estimated_hours := readHours p.formHours
           dependencies := readDependencies p.formDependencies }] ∧
      (addTaskFromForm p).nextLocalId = p.nextLocalId + 1 := by
  unfold addTaskFromForm
  dsimp only
  rw [if_neg h, updateBuiltTasksInfo_builtTasks, updateBuiltTasksInfo_nextLocalId]
  exact ⟨rfl, rfl⟩

/-- A rejected call only shows the alert. -/
theorem addTaskFromForm_rejected (p : Page) (h : trim p.formTitle = "") :
    addTaskFromForm p = { p with alerts := p.alerts ++ ["Title is required."] } := by
  unfold addTaskFromForm
  dsimp only
  rw [if_pos h]

/-! ## Splitting and trimming -/

theorem isWhiteSpace_ne_comma (c : Char) (h : isWhiteSpace c = true) : c ≠ ',' := by
  intro hc
  subst hc
  revert h
  decide

theorem splitComma_ne_nil (cs : List Char) : splitComma cs ≠ [] := by
  cases cs with
  | nil => simp [splitComma]
  | cons c cs =>
    unfold splitComma
    split
    · simp
    · split <;> simp

theorem trimChars_cons_ws (c : Char) (cs : List Char) (h : isWhiteSpace c = true) :
    trimChars (c :: cs) = trimChars cs := by
  simp [trimChars, List.dropWhile, h]

/-- Trailing white space does not change what `trim` returns. -/
theorem trimChars_append_ws (x w : List Char) (hw : ∀ c ∈ w, isWhiteSpace c = true) :
    trimChars (x ++ w) = trimChars x := by
  have key : ∀ z : List Char, ((z ++ w).reverse.dropWhile isWhiteSpace).reverse =
      (z.reverse.dropWhile isWhiteSpace).reverse := by
    intro z
    rw [List.reverse_append, List.dropWhile_append_of_pos]
    intro a ha
    exact hw a (List.mem_reverse.1 ha)
  unfold trimChars
  rw [List.dropWhile_append]
  split
  · rename_i hx
    have hx' : x.dropWhile isWhiteSpace = [] := List.isEmpty_iff.1 hx
    have hw' : w.dropWhile isWhiteSpace = [] := List.dropWhile_eq_nil_iff.2 (by simpa using hw)
    rw [hx', hw']
  · exact key _

/-- A list is what `rdropWhile` keeps followed by a run that satisfies the
predicate. -/
theorem exists_trailing_run (l : List Char) :
    ∃ w, (∀ c ∈ w, isWhiteSpace c = true) ∧
      l = (l.reverse.dropWhile isWhiteSpace).reverse ++ w := by
  refine ⟨(l.reverse.takeWhile isWhiteSpace).reverse, ?_, ?_⟩
  · intro c hc
    exact List.mem_takeWhile_imp (List.mem_reverse.1 hc)
  · rw [← List.reverse_append, List.takeWhile_append_dropWhile, List.reverse_reverse]

/-- Appending a run without commas extends the last piece only. -/
theorem splitComma_append (a w : List Char) (hw : ∀ c ∈ w, c ≠ ',') :
    ∃ front last, splitComma a = front ++ [last] ∧ splitComma (a ++ w) = front ++ [last ++ w] := by
  induction a with
  | nil =>
    refine ⟨[], [], rfl, ?_⟩
    induction w with
    | nil => rfl
    | cons c w ih =>
      have hc : c ≠ ',' := hw c (List.mem_cons_self _ _)
      have ih' := ih (fun d hd => hw d (List.mem_cons_of_mem _ hd))
      simp only [List.nil_append] at ih' ⊢
      unfold splitComma
      rw [if_neg hc, ih']
  | cons c a ih =>
    obtain ⟨front, last, h1, h2⟩ := ih
    by_cases hc : c = ','
    · refine ⟨[] :: front, last, ?_, ?_⟩
      · unfold splitComma
        rw [if_pos hc, h1]
        rfl
      · rw [List.cons_append]
        unfold splitComma
        rw [if_pos hc, h2]
        rfl
    · cases front with
      | nil =>
        refine ⟨[], c :: last, ?_, ?_⟩
        · unfold splitComma
          rw [if_neg hc, h1]
          rfl
        · rw [List.cons_append]
          unfold splitComma
          rw [if_neg hc, h2]
          rfl
      | cons x xs =>
        refine ⟨(c :: x) :: xs, last, ?_, ?_⟩
        · unfold splitComma
          rw [if_neg hc, h1]
          rfl
        · rw [List.cons_append]
          unfold splitComma
          rw [if_neg hc, h2]
          rfl

theorem map_trim_splitComma_append_ws (a w : List Char)
    (hw : ∀ c ∈ w, isWhiteSpace c = true) :
    (splitComma (a ++ w)).map trimChars = (splitComma a).map trimChars := by
  obtain ⟨front, last, h1, h2⟩ :=
    splitComma_append a w (fun c hc => isWhiteSpace_ne_comma c (hw c hc))
  rw [h1, h2, List.map_append, List.map_append, List.map_singleton, List.map_singleton,
    trimChars_append_ws last w hw]

theorem map_trim_splitComma_dropWhile (cs : List Char) :
    (splitComma (cs.dropWhile isWhiteSpace)).map trimChars = (splitComma cs).map trimChars := by
  induction cs with
  | nil => rfl
  | cons c cs ih =>
    by_cases hws : isWhiteSpace c = true
    · have hc : c ≠ ',' := isWhiteSpace_ne_comma c hws
      rw [List.dropWhile_cons_of_pos hws, ih]
      conv_rhs => unfold splitComma
      rw [if_neg hc]
      cases hsp : splitComma cs with
      | nil => exact absurd hsp (splitComma_ne_nil cs)
      | cons piece rest =>
        simp only [List.map_cons]
        rw [trimChars_cons_ws c piece hws]
    · rw [List.dropWhile_cons_of_neg hws]

/-- Trimming the whole field first does not change the trimmed pieces. -/
theorem map_trim_splitComma_trim (cs : List Char) :
    (splitComma (trimChars cs)).map trimChars = (splitComma cs).map trimChars := by
  obtain ⟨w, hw, hdec⟩ := exists_trailing_run (cs.dropWhile isWhiteSpace)
  have h1 : (splitComma (trimChars cs ++ w)).map trimChars =
      (splitComma (trimChars cs)).map trimChars :=
    map_trim_splitComma_append_ws (trimChars cs) w hw
  have h2 : trimChars cs ++ w = cs.dropWhile isWhiteSpace := by
    unfold trimChars
    exact hdec.symm
  rw [← h1, h2, map_trim_splitComma_dropWhile]

/-- The code reads the non-empty trimmed pieces of the raw field with `parseInt`
and keeps what is not `NaN`. -/
theorem readDependencies_eq (value : String) :
    readDependencies value =
      (trimmedPieces value).filterMap (fun piece => (parsedInteger piece).map numberOfInt) := by
  have hpipe : ∀ pieces : List (List Char),
      ((pieces.filter (fun s => decide (s.length > 0))).map parseIntChars).filter
          (fun n => !n.isNaN) =
        (pieces.filter (fun piece => decide (piece ≠ []))).filterMap
          (fun piece => (parsedInteger piece).map numberOfInt) := by
    intro pieces
    induction pieces with
    | nil => rfl
    | cons x xs ih =>
      by_cases hx : x = []
      · subst hx
        simpa using ih
      · have hlen : x.length > 0 := List.length_pos.2 hx
        simp only [List.filter_cons, hlen, hx, decide_True, decide_not, decide_False,
          Bool.not_false, if_true, List.map_cons, ne_eq, not_false_eq_true]
        cases hp : parsedInteger x with
        | none =>
          simp only [parseIntChars, hp, JsNum.isNaN, Bool.not_true, List.filterMap_cons,
            Option.map_none']
          simpa using ih
        | some k =>
          simp only [parseIntChars, hp, numberOfInt_isNaN, Bool.not_false, if_true,
            List.filterMap_cons, Option.map_some']
          congr 1
          simpa using ih
  unfold readDependencies trimmedPieces
  dsimp only
  by_cases hraw : (trimChars value.data).length > 0
  · rw [if_pos hraw, map_trim_splitComma_trim]
    exact hpipe _
  · rw [if_neg hraw]
    have hnil : trimChars value.data = [] := List.length_eq_zero.1 (by omega)
    have h := map_trim_splitComma_trim value.data
    rw [hnil] at h
    rw [← h]
    decide

/-! ## Overflow -/

theorem roundToDouble_overflow (n : Nat) (h : 2 ^ 1024 ≤ n) : roundToDouble n = none := by
  have h53 : 2 ^ 53 ≤ n :=
    Nat.le_trans (Nat.pow_le_pow_right (by norm_num) (by norm_num)) h
  have hn : ¬ n < 2 ^ 53 := Nat.not_lt.2 h53
  have hn0 : n ≠ 0 := by
    intro h0
    rw [h0] at h53
    exact absurd h53 (by norm_num)
  have hlog : 1024 ≤ Nat.log2 n := (Nat.le_log2 hn0).2 h
  have hpow : 2 ^ Nat.log2 n ≤ n := Nat.log2_self_le hn0
  have he : Nat.log2 n = 52 + (Nat.log2 n - 52) := by omega
  have hq : 2 ^ 52 ≤ n / 2 ^ (Nat.log2 n - 52) := by
    rw [Nat.le_div_iff_mul_le (Nat.two_pow_pos _), ← pow_add, ← he]
    exact hpow
  have hq' : 2 ^ 52 ≤ roundedMantissa n (Nat.log2 n - 52) :=
    Nat.le_trans hq (roundedMantissa_ge n _)
  have hv : 2 ^ 1024 ≤ roundedMantissa n (Nat.log2 n - 52) * 2 ^ (Nat.log2 n - 52) := by
    calc 2 ^ 1024 ≤ 2 ^ Nat.log2 n := Nat.pow_le_pow_right (by norm_num) hlog
      _ = 2 ^ (52 + (Nat.log2 n - 52)) := by rw [← he]
      _ = 2 ^ 52 * 2 ^ (Nat.log2 n - 52) := pow_add _ _ _
      _ ≤ _ := Nat.mul_le_mul_right _ hq'
  unfold roundToDouble
  rw [if_neg hn]
  dsimp only
  rw [if_pos hv]

theorem numberOfInt_overflow (k : Int) (h : ((2 ^ 1024 : Nat) : Int) ≤ k) :
    numberOfInt k = JsNum.posInf := by
  have hk : ¬ k < 0 := by
    have : (0 : Int) ≤ ((2 ^ 1024 : Nat) : Int) := Int.natCast_nonneg _
    omega
  have habs : 2 ^ 1024 ≤ k.natAbs := by
    have h1 : ((2 ^ 1024 : Nat) : Int) ≤ (k.natAbs : Int) := by
      have : (k.natAbs : Int) = k := by omega
      rw [this]
      exact h
    exact_mod_cast h1
  unfold numberOfInt
  rw [roundToDouble_overflow _ habs]
  dsimp only
  rw [if_neg hk]

theorem foldl_digits_ge (ds : List Char) (acc : Nat) :
    acc * 10 ^ ds.length ≤ ds.foldl (fun acc d => 10 * acc + (d.toNat - 48)) acc := by
  induction ds generalizing acc with
  | nil => simp
  | cons d ds ih =>
    rw [List.foldl_cons, List.length_cons, pow_succ]
    refine Nat.le_trans ?_ (ih _)
    have : acc * (10 ^ ds.length * 10) = (10 * acc) * 10 ^ ds.length := by ring
    rw [this]
    exact Nat.mul_le_mul_right _ (Nat.le_add_right _ _)

/-- The numeral of 400 digits is read as an integer of at least `2 ^ 1024`. -/
theorem parsedInteger_hugeNumeral :
    ∃ k : Int, parsedInteger hugeNumeral.data = some k ∧ ((2 ^ 1024 : Nat) : Int) ≤ k := by
  have hz : ('1' :: List.replicate 399 '0').takeWhile Char.isDigit =
      '1' :: List.replicate 399 '0' := by
    rw [List.takeWhile_cons_of_pos (by decide), List.takeWhile_replicate, if_pos (by decide)]
  have hd : ('1' :: List.replicate 399 '0').dropWhile isWhiteSpace =
      '1' :: List.replicate 399 '0' := List.dropWhile_cons_of_neg (by decide)
  have hne : ('1' :: List.replicate 399 '0' : List Char) ≠ [] := List.cons_ne_nil _ _
  refine ⟨(digitsValue ('1' :: List.replicate 399 '0') : Int), ?_, ?_⟩
  · show parsedInteger ('1' :: List.replicate 399 '0') = _
    unfold parsedInteger
    dsimp only
    rw [hd]
    have h1 : ¬ (('1' :: List.replicate 399 '0' : List Char).head? = some '-' ∨
        ('1' :: List.replicate 399 '0' : List Char).head? = some '+') := by
      simp only [List.head?_cons]
      decide
    have h2 : ¬ (('1' :: List.replicate 399 '0' : List Char).head? = some '-') := by
      simp only [List.head?_cons]
      decide
    rw [if_neg h1, hz, if_neg hne, if_neg h2]
  · have h3 : 1 * 10 ^ 399 ≤ digitsValue ('1' :: List.replicate 399 '0') := by
      have := foldl_digits_ge (List.replicate 399 '0') 1
      rw [List.length_replicate] at this
      exact this
    have h4 : 2 ^ 1024 ≤ 1 * 10 ^ 399 := by
      calc 2 ^ 1024 ≤ 2 ^ (3 * 399) := Nat.pow_le_pow_right (by norm_num) (by norm_num)
        _ = (2 ^ 3) ^ 399 := pow_mul _ _ _
        _ ≤ 10 ^ 399 := Nat.pow_le_pow_left (by norm_num) _
        _ = 1 * 10 ^ 399 := (Nat.one_mul _).symm
    exact_mod_cast Nat.le_trans h4 h3

theorem trim_eq_empty_iff (s : String) : trim s = "" ↔ trimChars s.data = [] := by
  constructor
  · intro h
    have := congrArg String.data h
    simpa [trim] using this
  · intro h
    unfold trim
    rw [h]

theorem trimChars_of_all_ws (cs : List Char) (h : ∀ c ∈ cs, isWhiteSpace c = true) :
    trimChars cs = [] := by
  have := trimChars_append_ws [] cs h
  simpa [trimChars] using this

/-! ## Reading integers -/

theorem foldl_digits_eq (ds : List Char) (acc : Nat) :
    ds.foldl (fun acc d => 10 * acc + (d.toNat - 48)) acc =
      acc * 10 ^ ds.length + decimalValue ds := by
  induction ds generalizing acc with
  | nil => simp [decimalValue]
  | cons d ds ih =>
    rw [List.foldl_cons, ih, List.length_cons, decimalValue, pow_succ]
    ring

theorem digitsValue_eq (ds : List Char) : digitsValue ds = decimalValue ds := by
  unfold digitsValue
  rw [foldl_digits_eq]
  simp

theorem isDigit_not_isWhiteSpace (c : Char) (h : c.isDigit = true) : isWhiteSpace c = false := by
  have hr : 48 ≤ c.toNat ∧ c.toNat ≤ 57 := by
    simpa [Char.isDigit, Char.toNat, UInt32.le_def, Fin.le_def] using h
  unfold isWhiteSpace whiteSpaceCodes
  simp only [List.contains_eq_any_beq, List.any_cons, List.any_nil, Bool.or_false,
    Bool.or_eq_false_iff, beq_eq_false_iff_ne, ne_eq]
  omega

theorem head?_dropWhile_false (q : Char → Bool) (l : List Char) (c : Char)
    (h : (l.dropWhile q).head? = some c) : q c = false := by
  have := List.head?_dropWhile_not q l
  rw [h] at this
  exact this

theorem takeWhile_of_head_false (q : Char → Bool) (l : List Char)
    (h : ∀ c, l.head? = some c → q c = false) : l.takeWhile q = [] := by
  cases l with
  | nil => rfl
  | cons c l => exact List.takeWhile_cons_of_neg (by simp [h c rfl])

theorem dropWhile_of_head_false (q : Char → Bool) (l : List Char)
    (h : ∀ c, l.head? = some c → q c = false) : l.dropWhile q = l := by
  cases l with
  | nil => rfl
  | cons c l => exact List.dropWhile_cons_of_neg (by simp [h c rfl])

/-- A text that leads with an integer is read as that integer. -/
theorem parsedInteger_of_leads (cs : List Char) (k : Int) (h : LeadsWithInteger cs k) :
    parsedInteger cs = some k := by
  obtain ⟨ws, sign, ds, rest, hcs, hws, hsign, hne, hdig, hrest, hk⟩ := h
  obtain ⟨d, ds', hds⟩ := List.exists_cons_of_ne_nil hne
  have hd : d.isDigit = true := hdig d (by rw [hds]; exact List.mem_cons_self _ _)
  have hdm : d ≠ '-' := by
    intro he
    rw [he] at hd
    exact absurd hd (by decide)
  have hdp : d ≠ '+' := by
    intro he
    rw [he] at hd
    exact absurd hd (by decide)
  have htake : (ds ++ rest).takeWhile Char.isDigit = ds := by
    rw [List.takeWhile_append_of_pos hdig, takeWhile_of_head_false _ _ hrest, List.append_nil]
  have hdrop : cs.dropWhile isWhiteSpace = sign ++ (ds ++ rest) := by
    rw [hcs, List.dropWhile_append_of_pos hws]
    apply dropWhile_of_head_false
    intro c hc
    rcases hsign with hs | hs | hs
    · rw [hs, hds] at hc
      simp only [List.nil_append, List.cons_append, List.head?_cons, Option.some.injEq] at hc
      rw [← hc]
      exact isDigit_not_isWhiteSpace d hd
    · rw [hs] at hc
      simp only [List.cons_append, List.head?_cons, Option.some.injEq] at hc
      rw [← hc]
      decide
    · rw [hs] at hc
      simp only [List.cons_append, List.head?_cons, Option.some.injEq] at hc
      rw [← hc]
      decide
  unfold parsedInteger
  dsimp only
  rw [hdrop]
  rcases hsign with hs | hs | hs
  · subst hs
    have hh : ([] ++ (ds ++ rest)).head? = some d := by rw [hds]; rfl
    have h1 : ¬ (([] ++ (ds ++ rest)).head? = some '-' ∨
        ([] ++ (ds ++ rest)).head? = some '+') := by
      rw [hh]
      simp [hdm, hdp]
    have h2 : ¬ (([] ++ (ds ++ rest)).head? = some '-') := by
      rw [hh]
      simp [hdm]
    rw [if_neg h1, List.nil_append, htake, if_neg hne]
    rw [List.nil_append] at h2
    rw [if_neg h2, hk, digitsValue_eq]
    simp
  · subst hs
    have h1 : ((['-'] ++ (ds ++ rest)).head? = some '-' ∨
        (['-'] ++ (ds ++ rest)).head? = some '+') := Or.inl rfl
    have h2 : (['-'] ++ (ds ++ rest)).head? = some '-' := rfl
    rw [if_pos h1]
    have ht : (['-'] ++ (ds ++ rest)).tail = ds ++ rest := rfl
    rw [ht, htake, if_neg hne, if_pos h2, hk, digitsValue_eq]
    simp
  · subst hs
    have h1 : ((['+'] ++ (ds ++ rest)).head? = some '-' ∨
        (['+'] ++ (ds ++ rest)).head? = some '+') := Or.inr rfl
    have h2 : ¬ ((['+'] ++ (ds ++ rest)).head? = some '-') := by
      simp only [List.cons_append, List.head?_cons, Option.some.injEq]
      decide
    rw [if_pos h1]
    have ht : (['+'] ++ (ds ++ rest)).tail = ds ++ rest := rfl
    rw [ht, htake, if_neg hne, if_neg h2, hk, digitsValue_eq]
    have hpm : ¬ (['+'] = ['-']) := by decide
    rw [if_neg hpm]

/-- What is read as an integer leads with that integer. -/
theorem leads_of_parsedInteger (cs : List Char) (k : Int) (h : parsedInteger cs = some k) :
    LeadsWithInteger cs k := by
  have hsplit : cs = cs.takeWhile isWhiteSpace ++ cs.dropWhile isWhiteSpace :=
    (List.takeWhile_append_dropWhile _ _).symm
  have hws : ∀ c ∈ cs.takeWhile isWhiteSpace, isWhiteSpace c = true :=
    fun c hc => List.mem_takeWhile_imp hc
  unfold parsedInteger at h
  dsimp only at h
  generalize hs0 : cs.dropWhile isWhiteSpace = s0 at h hsplit
  have key : ∀ (sign s : List Char), s0 = sign ++ s →
      (sign = [] ∨ sign = ['-'] ∨ sign = ['+']) →
      s.takeWhile Char.isDigit ≠ [] →
      k = (if sign = ['-'] then -(digitsValue (s.takeWhile Char.isDigit) : Int)
        else (digitsValue (s.takeWhile Char.isDigit) : Int)) →
      LeadsWithInteger cs k := by
    intro sign s hs hsign hz hk
    refine ⟨cs.takeWhile isWhiteSpace, sign, s.takeWhile Char.isDigit,
      s.dropWhile Char.isDigit, ?_, hws, hsign, hz,
      fun c hc => List.mem_takeWhile_imp hc,
      fun c hc => head?_dropWhile_false _ _ _ hc, ?_⟩
    · rw [List.takeWhile_append_dropWhile, ← hs]
      exact hsplit
    · rw [hk, digitsValue_eq]
  cases s0 with
  | nil =>
    simp at h
  | cons c s1 =>
    by_cases hm : c = '-'
    · subst hm
      have h1 : (('-' :: s1).head? = some '-' ∨ ('-' :: s1).head? = some '+') := Or.inl rfl
      have h2 : ('-' :: s1).head? = some '-' := rfl
      rw [if_pos h1, List.tail_cons] at h
      by_cases hz : s1.takeWhile Char.isDigit = []
      · rw [if_pos hz] at h
        exact absurd h (by simp)
      · rw [if_neg hz, if_pos h2] at h
        injection h with h
        exact key ['-'] s1 rfl (Or.inr (Or.inl rfl)) hz (by rw [if_pos rfl]; exact h.symm)
    · by_cases hp : c = '+'
      · subst hp
        have h1 : (('+' :: s1).head? = some '-' ∨ ('+' :: s1).head? = some '+') := Or.inr rfl
        have h2 : ¬ (('+' :: s1).head? = some '-') := by
          simp only [List.head?_cons, Option.some.injEq]
          decide
        rw [if_pos h1, List.tail_cons] at h
        by_cases hz : s1.takeWhile Char.isDigit = []
        · rw [if_pos hz] at h
          exact absurd h (by simp)
        · rw [if_neg hz, if_neg h2] at h
          injection h with h
          have hpm : ¬ (['+'] = ['-']) := by decide
          exact key ['+'] s1 rfl (Or.inr (Or.inr rfl)) hz (by rw [if_neg hpm]; exact h.symm)
      · have h1 : ¬ ((c :: s1).head? = some '-' ∨ (c :: s1).head? = some '+') := by
          simp [hm, hp]
        have h2 : ¬ ((c :: s1).head? = some '-') := by simp [hm]
        rw [if_neg h1] at h
        by_cases hz : (c :: s1).takeWhile Char.isDigit = []
        · rw [if_pos hz] at h
          exact absurd h (by simp)
        · rw [if_neg hz, if_neg h2] at h
          injection h with h
          have hnil : ¬ (([] : List Char) = ['-']) := by simp
          exact key [] (c :: s1) rfl (Or.inl rfl) hz (by rw [if_neg hnil]; exact h.symm)

theorem parsedInteger_iff_leads (cs : List Char) (k : Int) :
    parsedInteger cs = some k ↔ LeadsWithInteger cs k :=
  ⟨leads_of_parsedInteger cs k, parsedInteger_of_leads cs k⟩

theorem parsedInteger_none_iff (cs : List Char) :
    parsedInteger cs = none ↔ ∀ k, ¬ LeadsWithInteger cs k := by
  constructor
  · intro h k hk
    rw [parsedInteger_of_leads cs k hk] at h
    exact absurd h (by simp)
  · intro h
    cases hp : parsedInteger cs with
    | none => rfl
    | some k => exact absurd (leads_of_parsedInteger cs k hp) (h k)

/-! ## Rounding -/

theorem roundedMantissa_near (n e : Nat) (he : 1 ≤ e) :
    roundedMantissa n e * 2 ^ e ≤ n + 2 ^ (e - 1) ∧
      n ≤ roundedMantissa n e * 2 ^ e + 2 ^ (e - 1) := by
  have hE : 2 ^ e = 2 * 2 ^ (e - 1) := by
    have h1 : e = (e - 1) + 1 := by omega
    conv_lhs => rw [h1]
    rw [pow_succ]
    ring
  have hdm := Nat.div_add_mod n (2 ^ e)
  have hlt := Nat.mod_lt n (Nat.two_pow_pos e)
  unfold roundedMantissa
  dsimp only
  generalize n / 2 ^ e = q at *
  generalize n % 2 ^ e = r at *
  rw [hE] at hdm hlt ⊢
  generalize 2 ^ (e - 1) = H at *
  split
  · have h2 : (q + 1) * (2 * H) = 2 * H * q + 2 * H := by ring
    rw [h2]
    generalize 2 * H * q = a at *
    omega
  · have h2 : q * (2 * H) = 2 * H * q := by ring
    rw [h2]
    generalize 2 * H * q = a at *
    omega

/-- Rounding moves a natural number of at least `2 ^ 53` by at most one part in
`2 ^ 53`. -/
theorem roundToDouble_near (n m : Nat) (h : 2 ^ 53 ≤ n) (hm : roundToDouble n = some m) :
    ∃ H : Nat, 2 ^ 53 * H ≤ n ∧ m ≤ n + H ∧ n ≤ m + H := by
  have hn : ¬ n < 2 ^ 53 := Nat.not_lt.2 h
  have hn0 : n ≠ 0 := by
    intro h0
    rw [h0] at h
    exact absurd h (by norm_num)
  have hlog : 53 ≤ Nat.log2 n := (Nat.le_log2 hn0).2 h
  have hpow : 2 ^ Nat.log2 n ≤ n := Nat.log2_self_le hn0
  unfold roundToDouble at hm
  rw [if_neg hn] at hm
  dsimp only at hm
  split at hm
  · exact absurd hm (by simp)
  · injection hm with hm
    subst hm
    obtain ⟨h1, h2⟩ := roundedMantissa_near n (Nat.log2 n - 52) (by omega)
    refine ⟨2 ^ (Nat.log2 n - 52 - 1), ?_, h1, h2⟩
    have he : Nat.log2 n = 53 + (Nat.log2 n - 52 - 1) := by omega
    calc 2 ^ 53 * 2 ^ (Nat.log2 n - 52 - 1) = 2 ^ (53 + (Nat.log2 n - 52 - 1)) :=
          (pow_add _ _ _).symm
      _ = 2 ^ Nat.log2 n := by rw [← he]
      _ ≤ n := hpow

/-- The number `parseInt` returns for an integer stands for that integer. -/
theorem numberOfInt_isNumberFor (k : Int) : IsNumberFor k (numberOfInt k) := by
  by_cases hs : k.natAbs < 2 ^ 53
  · exact Or.inl ⟨hs, numberOfInt_exact k hs⟩
  · have hge : 2 ^ 53 ≤ k.natAbs := Nat.not_lt.1 hs
    refine Or.inr ⟨hge, ?_⟩
    have hbig : ∀ j : Int, j.natAbs < 2 ^ 1023 ∨ 2 ^ 1023 ≤ j.natAbs := fun j =>
      Nat.lt_or_ge _ _
    have hcast : ((2 ^ 1023 : Nat) : Int) = 2 ^ 1023 := by
      rw [Nat.cast_pow, Nat.cast_ofNat]
    unfold numberOfInt
    cases hr : roundToDouble k.natAbs with
    | none =>
      dsimp only
      have hfar : 2 ^ 1023 ≤ k.natAbs := by
        rcases hbig k with hlt | hle
        · obtain ⟨m, hm⟩ := roundToDouble_finite _ hlt
          rw [hm] at hr
          exact absurd hr (by simp)
        · exact hle
      have hfar' : ((2 ^ 1023 : Nat) : Int) ≤ (k.natAbs : Int) := by exact_mod_cast hfar
      rw [hcast] at hfar'
      by_cases hk : k < 0
      · rw [if_pos hk]
        refine Or.inr (Or.inl ⟨rfl, ?_⟩)
        omega
      · rw [if_neg hk]
        refine Or.inl ⟨rfl, ?_⟩
        omega
    | some m =>
      dsimp only
      obtain ⟨H, hH, h1, h2⟩ := roundToDouble_near _ _ hge hr
      have hH' : (2 : Int) ^ 53 * (H : Int) ≤ (k.natAbs : Int) := by exact_mod_cast hH
      have h1' : (m : Int) ≤ (k.natAbs : Int) + (H : Int) := by exact_mod_cast h1
      have h2' : (k.natAbs : Int) ≤ (m : Int) + (H : Int) := by exact_mod_cast h2
      have habs : (k.natAbs : Int) = |k| := Int.natCast_natAbs k
      refine Or.inr (Or.inr ?_)
      by_cases hk : k < 0
      · rw [if_pos hk]
        refine ⟨-(m : Int), by push_cast; rfl, ?_⟩
        have hkabs : |k| = -k := abs_of_neg hk
        have hd : |(-(m : Int)) - k| ≤ (H : Int) := by
          rw [abs_le]
          constructor <;> omega
        calc (2 : Int) ^ 53 * |(-(m : Int)) - k| ≤ 2 ^ 53 * (H : Int) :=
              Int.mul_le_mul_of_nonneg_left hd (by positivity)
          _ ≤ |k| := by rw [← habs]; exact hH'
      · rw [if_neg hk]
        refine ⟨(m : Int), by push_cast; rfl, ?_⟩
        have hkabs : |k| = k := abs_of_nonneg (by omega)
        have hd : |(m : Int) - k| ≤ (H : Int) := by
          rw [abs_le]
          constructor <;> omega
        calc (2 : Int) ^ 53 * |(m : Int) - k| ≤ 2 ^ 53 * (H : Int) :=
              Int.mul_le_mul_of_nonneg_left hd (by positivity)
          _ ≤ |k| := by rw [← habs]; exact hH'

/-- A number standing for an integer of magnitude below `2 ^ 53` is that
integer. -/
theorem isNumberFor_exact (k : Int) (x : JsNum) (h : IsNumberFor k x) (hk : k.natAbs < 2 ^ 53) :
    x = JsNum.fin (k : ℚ) := by
  rcases h with ⟨_, hx⟩ | ⟨hge, _⟩
  · exact hx
  · omega

theorem readsAs_filterMap (pieces : List (List Char)) :
    ReadsAs pieces
      (pieces.filterMap (fun piece => (parsedInteger piece).map numberOfInt)) := by
  induction pieces with
  | nil => exact ReadsAs.nil
  | cons piece pieces ih =>
    cases hp : parsedInteger piece with
    | none =>
      rw [List.filterMap_cons_none (by rw [hp]; rfl)]
      exact ReadsAs.drop piece pieces _ ((parsedInteger_none_iff piece).1 hp) ih
    | some k =>
      rw [List.filterMap_cons_some (by rw [hp]; rfl)]
      exact ReadsAs.keep piece k _ pieces _ (leads_of_parsedInteger piece k hp)
        (numberOfInt_isNumberFor k) ih

/-- A numeral leads with the integer it denotes. -/
theorem leads_of_integerOfNumeral (cs : List Char) (k : Int)
    (h : integerOfNumeral cs = some k) : LeadsWithInteger cs k := by
  unfold integerOfNumeral at h
  split at h
  · rename_i ds
    split at h
    · rename_i hc
      injection h with h
      refine ⟨[], ['-'], ds, [], by simp, by simp, Or.inr (Or.inl rfl), hc.1,
        fun c hc' => (List.all_eq_true.1 hc.2) c hc', by simp, ?_⟩
      rw [if_pos rfl, h]
    · exact absurd h (by simp)
  · rename_i ds
    split at h
    · rename_i hc
      injection h with h
      have hpm : ¬ (['+'] = ['-']) := by decide
      refine ⟨[], ['+'], ds, [], by simp, by simp, Or.inr (Or.inr rfl), hc.1,
        fun c hc' => (List.all_eq_true.1 hc.2) c hc', by simp, ?_⟩
      rw [if_neg hpm, h]
    · exact absurd h (by simp)
  · split at h
    · rename_i hc
      injection h with h
      have hnil : ¬ (([] : List Char) = ['-']) := by simp
      refine ⟨[], [], cs, [], by simp, by simp, Or.inl rfl, hc.1,
        fun c hc' => (List.all_eq_true.1 hc.2) c hc', by simp, ?_⟩
      rw [if_neg hnil, h]
    · exact absurd h (by simp)

/-- When every piece is a numeral of magnitude below `2 ^ 53` or leads with no
integer, the numbers read are the integers the numerals denote. -/
theorem readsAs_numerals (pieces : List (List Char)) (numbers : List JsNum)
    (h : ReadsAs pieces numbers)
    (hall : ∀ piece ∈ pieces, (∀ k, ¬ LeadsWithInteger piece k) ∨
      ∃ k, integerOfNumeral piece = some k ∧ k.natAbs < 2 ^ 53) :
    numbers = (pieces.filterMap integerOfNumeral).map (fun k : Int => JsNum.fin (k : ℚ)) := by
  induction h with
  | nil => rfl
  | drop piece pieces numbers hno _ ih =>
    have hnone : integerOfNumeral piece = none := by
      cases hi : integerOfNumeral piece with
      | none => rfl
      | some k => exact absurd (leads_of_integerOfNumeral piece k hi) (hno k)
    rw [List.filterMap_cons_none hnone]
    exact ih (fun q hq => hall q (List.mem_cons_of_mem _ hq))
  | keep piece k x pieces numbers hlead hnum _ ih =>
    rcases hall piece (List.mem_cons_self _ _) with hno | ⟨j, hj, hsmall⟩
    · exact absurd hlead (hno k)
    · have hjk : j = k := by
        have h1 := parsedInteger_of_leads piece j (leads_of_integerOfNumeral piece j hj)
        have h2 := parsedInteger_of_leads piece k hlead
        rw [h1] at h2
        injection h2
      subst hjk
      rw [List.filterMap_cons_some hj, List.map_cons,
        isNumberFor_exact j x hnum hsmall,
        ih (fun q hq => hall q (List.mem_cons_of_mem _ hq))]

/-- The numeral of 400 digits is one piece, untouched by the trimming. -/
theorem trimmedPieces_hugeNumeral : trimmedPieces hugeNumeral = [hugeNumeral.data] := by
  have hdata : hugeNumeral.data = '1' :: List.replicate 399 '0' := rfl
  have hsplit : splitComma ('1' :: List.replicate 399 '0') = ['1' :: List.replicate 399 '0'] := by
    obtain ⟨front, last, h1, h2⟩ := splitComma_append [] ('1' :: List.replicate 399 '0')
      (by
        intro c hc
        rcases List.mem_cons.1 hc with hc | hc
        · rw [hc]
          decide
        · rw [List.eq_of_mem_replicate hc]
          decide)
    have hfl : front = [] ∧ last = [] := by
      have h3 : splitComma [] = [[]] := rfl
      rw [h3] at h1
      cases front with
      | nil =>
        simp only [List.nil_append, List.cons.injEq, and_true] at h1
        exact ⟨rfl, h1.symm⟩
      | cons x xs =>
        have := congrArg List.length h1
        simp at this
    rw [hfl.1, hfl.2] at h2
    simp only [List.nil_append] at h2
    exact h2
  have htrim : trimChars ('1' :: List.replicate 399 '0') = '1' :: List.replicate 399 '0' := by
    unfold trimChars
    rw [List.dropWhile_cons_of_neg (by decide)]
    have hrev : ('1' :: List.replicate 399 '0').reverse = '0' :: (List.replicate 398 '0' ++ ['1']) := by
      rw [List.reverse_cons, List.reverse_replicate]
      rfl
    rw [hrev, List.dropWhile_cons_of_neg (by decide), ← hrev, List.reverse_reverse]
  have hne : ('1' :: List.replicate 399 '0' : List Char) ≠ [] := List.cons_ne_nil _ _
  unfold trimmedPieces
  rw [hdata, hsplit, List.map_singleton, htrim]
  have hkeep : decide (('1' :: List.replicate 399 '0' : List Char) ≠ []) = true :=
    decide_eq_true hne
  simp only [List.filter, hkeep]

/-! ## Task builder: the claims -/

/-- C1, as the code has it: with a non-blank title, `addTaskFromForm` appends a
task whose importance is 5 when the importance field is empty, leads with no
integer (white space, an optional sign, digits; what follows is ignored), or
leads with an integer outside 1..10, and is the leading integer otherwise; the
stored importance is always an integer between 1 and 10. -/
theorem addTaskFromForm_importance (p : Page) (h : trim p.formTitle ≠ "") :
    ∃ t, (addTaskFromForm p).builtTasks = p.builtTasks ++ [t] ∧
      ((p.formImportance = "" ∨ (∀ k, ¬ LeadsWithInteger p.formImportance.data k) ∨
          ∃ k, LeadsWithInteger p.formImportance.data k ∧ (k < 1 ∨ 10 < k)) →
        t.importance = JsNum.fin 5) ∧
      (∀ k, LeadsWithInteger p.formImportance.data k → 1 ≤ k → k ≤ 10 →
        t.importance = JsNum.fin (k : ℚ)) ∧
      ∃ k : Int, 1 ≤ k ∧ k ≤ 10 ∧ t.importance = JsNum.fin (k : ℚ) := by
  refine ⟨_, (addTaskFromForm_accepted p h).1, ?_, ?_, ?_⟩
  · show _ → readImportance p.formImportance = JsNum.fin 5
    rintro (he | hn | ⟨k, hk, hout⟩)
    · exact readImportance_of_none _ (parsedInteger_empty _ he)
    · exact readImportance_of_none _ ((parsedInteger_none_iff _).2 hn)
    · rw [readImportance_of_some _ k (parsedInteger_of_leads _ k hk), if_neg (by omega)]
  · intro k hk h1 h10
    show readImportance p.formImportance = _
    rw [readImportance_of_some _ k (parsedInteger_of_leads _ k hk), if_pos ⟨h1, h10⟩]
  · show ∃ k : Int, 1 ≤ k ∧ k ≤ 10 ∧ readImportance p.formImportance = JsNum.fin (k : ℚ)
    cases hp : parsedInteger p.formImportance.data with
    | none => exact ⟨5, by norm_num, by norm_num, by rw [readImportance_of_none _ hp]; simp⟩
    | some k =>
      rw [readImportance_of_some _ k hp]
      by_cases hin : 1 ≤ k ∧ k ≤ 10
      · exact ⟨k, hin.1, hin.2, by rw [if_pos hin]⟩
      · exact ⟨5, by norm_num, by norm_num, by rw [if_neg hin]; simp⟩

/-- C1, at the form "Write report" with importance "7": the task stored has
importance 7. -/
theorem addTaskFromForm_importance_witness :
    trim reportForm.formTitle ≠ "" ∧
      ∃ t, (addTaskFromForm reportForm).builtTasks = reportForm.builtTasks ++ [t] ∧
        t.importance = JsNum.fin 7 := by
  refine ⟨by decide, ?_⟩
  obtain ⟨t, ht, _, h2, _⟩ := addTaskFromForm_importance reportForm (by decide)
  have hlead : LeadsWithInteger reportForm.formImportance.data 7 :=
    leads_of_parsedInteger _ _ (by decide)
  exact ⟨t, ht, by simpa using h2 7 hlead (by decide) (by decide)⟩

/-- C1 fails as stated: the importance field "7abc" is not a numeral, yet with
the title "Plan" the importance stored is 7, not 5. -/
theorem addTaskFromForm_importance_loose :
    trim looseImportanceForm.formTitle ≠ "" ∧
      integerOfNumeral looseImportanceForm.formImportance.data = none ∧
      ∃ t, (addTaskFromForm looseImportanceForm).builtTasks = [t] ∧
        t.importance = JsNum.fin 7 ∧ t.importance ≠ JsNum.fin 5 := by
  have hacc : trim looseImportanceForm.formTitle ≠ "" := by decide
  have happ := (addTaskFromForm_accepted looseImportanceForm hacc).1
  have hnil : looseImportanceForm.builtTasks = [] := rfl
  rw [hnil, List.nil_append] at happ
  have hval : readImportance looseImportanceForm.formImportance = JsNum.fin 7 := by decide
  refine ⟨hacc, by decide, _, happ, hval, ?_⟩
  show readImportance looseImportanceForm.formImportance ≠ JsNum.fin 5
  rw [hval]
  decide

/-- C2, as the code has it: with a non-blank title, `addTaskFromForm` appends a
task whose estimated hours are 1 when the hours field is empty, holds no
integer, or holds an integer below 1; otherwise they are the Number value of the
integer read, which is that integer below `2 ^ 53`, an integer below `2 ^ 1023`,
and in every case an integer of at least 1 or positive infinity (never NaN). -/
theorem addTaskFromForm_hours (p : Page) (h : trim p.formTitle ≠ "") :
    ∃ t, (addTaskFromForm p).builtTasks = p.builtTasks ++ [t] ∧
      ((p.formHours = "" ∨ parsedInteger p.formHours.data = none ∨
          ∃ k, parsedInteger p.formHours.data = some k ∧ k < 1) →
        t.estimated_hours = JsNum.fin 1) ∧
      (∀ k, parsedInteger p.formHours.data = some k → 1 ≤ k →
        t.estimated_hours = numberOfInt k ∧
        (k < 2 ^ 53 → t.estimated_hours = JsNum.fin (k : ℚ)) ∧
        (k < 2 ^ 1023 → t.estimated_hours.IsInteger)) ∧
      (t.estimated_hours = JsNum.posInf ∨
        ∃ j : Int, 1 ≤ j ∧ t.estimated_hours = JsNum.fin (j : ℚ)) := by
  refine ⟨_, (addTaskFromForm_accepted p h).1, ?_, ?_, ?_⟩
  · show _ → readHours p.formHours = JsNum.fin 1
    rintro (he | hn | ⟨k, hk, hlt⟩)
    · exact readHours_of_none _ (parsedInteger_empty _ he)
    · exact readHours_of_none _ hn
    · exact readHours_of_lt_one _ k hk hlt
  · intro k hk h1
    show readHours p.formHours = _ ∧ (_ → readHours p.formHours = _) ∧
      (_ → (readHours p.formHours).IsInteger)
    rw [readHours_of_ge_one _ k hk h1]
    refine ⟨rfl, ?_, ?_⟩
    · intro hlt
      apply numberOfInt_exact
      have h2 : (k.natAbs : Int) < ((2 ^ 53 : Nat) : Int) := by
        have h3 : (k.natAbs : Int) = k := by omega
        rw [h3]
        exact_mod_cast hlt
      exact_mod_cast h2
    · intro hlt
      obtain ⟨m, hm⟩ := numberOfInt_finite k (by omega) hlt
      exact ⟨(m : Int), by rw [hm, Int.cast_natCast]⟩
  · show readHours p.formHours = JsNum.posInf ∨
      ∃ j : Int, 1 ≤ j ∧ readHours p.formHours = JsNum.fin (j : ℚ)
    cases hp : parsedInteger p.formHours.data with
    | none => exact Or.inr ⟨1, le_refl _, by rw [readHours_of_none _ hp]; simp⟩
    | some k =>
      by_cases h1 : 1 ≤ k
      · rw [readHours_of_ge_one _ k hp h1]
        exact numberOfInt_pos k h1
      · exact Or.inr ⟨1, le_refl _, by rw [readHours_of_lt_one _ k hp (by omega)]; simp⟩

/-- C2, at the form "Write report" with hours "3": the task stored has 3
estimated hours. -/
theorem addTaskFromForm_hours_witness :
    trim reportForm.formTitle ≠ "" ∧
      ∃ t, (addTaskFromForm reportForm).builtTasks = reportForm.builtTasks ++ [t] ∧
        t.estimated_hours = JsNum.fin 3 := by
  refine ⟨by decide, ?_⟩
  obtain ⟨t, ht, _, h2, _⟩ := addTaskFromForm_hours reportForm (by decide)
  exact ⟨t, ht, by simpa using (h2 3 (by decide) (by decide)).2.1 (by norm_num)⟩

/-- C2 fails as stated: with the title "Plan" and the numeral of 400 digits in
the hours field, the estimated hours stored are positive infinity, which is not
an integer. -/
theorem addTaskFromForm_hours_overflow :
    trim hugeHoursForm.formTitle ≠ "" ∧
      ∃ t, (addTaskFromForm hugeHoursForm).builtTasks = [t] ∧
        t.estimated_hours = JsNum.posInf ∧ ¬ t.estimated_hours.IsInteger := by
  have hacc : trim hugeHoursForm.formTitle ≠ "" := by decide
  obtain ⟨k, hk, hbig⟩ := parsedInteger_hugeNumeral
  have hone : 1 ≤ k := by
    have : (1 : Int) ≤ ((2 ^ 1024 : Nat) : Int) := by
      exact_mod_cast Nat.one_le_two_pow
    omega
  have hval : readHours hugeNumeral = JsNum.posInf := by
    rw [readHours_of_ge_one _ k hk hone, numberOfInt_overflow k hbig]
  have hint : ¬ (readHours hugeNumeral).IsInteger := by
    rw [hval]
    rintro ⟨j, hj⟩
    exact absurd hj (by simp)
  have happ := (addTaskFromForm_accepted hugeHoursForm hacc).1
  have hnil : hugeHoursForm.builtTasks = [] := rfl
  have hform : hugeHoursForm.formHours = hugeNumeral := rfl
  rw [hnil, List.nil_append] at happ
  refine ⟨hacc, _, happ, ?_, ?_⟩
  · dsimp only
    rw [hform]
    exact hval
  · dsimp only
    rw [hform]
    exact hint

/-- C3, as the code has it: with a non-blank title, the dependency list
`addTaskFromForm` stores is read from the non-empty trimmed pieces of the field,
in order: a piece that leads with no integer is dropped, a piece that leads with
an integer gives the number standing for it (the integer itself below `2 ^ 53`
in magnitude), whatever follows its digits.  When every piece is a numeral below
`2 ^ 53` in magnitude or leads with no integer, the list is the specification's;
the field "1, 2,,x,3" gives 1, 2, 3 and the empty field gives the empty list. -/
theorem addTaskFromForm_dependencies (p : Page) (h : trim p.formTitle ≠ "") :
    ∃ t, (addTaskFromForm p).builtTasks = p.builtTasks ++ [t] ∧
      ReadsAs (trimmedPieces p.formDependencies) t.dependencies ∧
      ((∀ piece ∈ trimmedPieces p.formDependencies,
          (∀ k, ¬ LeadsWithInteger piece k) ∨
            ∃ k, integerOfNumeral piece = some k ∧ k.natAbs < 2 ^ 53) →
        t.dependencies =
          (dependencyList p.formDependencies).map (fun k : Int => JsNum.fin (k : ℚ))) ∧
      (p.formDependencies = "1, 2,,x,3" →
        t.dependencies = [JsNum.fin 1, JsNum.fin 2, JsNum.fin 3]) ∧
      (p.formDependencies = "" → t.dependencies = []) := by
  have hreads : ReadsAs (trimmedPieces p.formDependencies)
      (readDependencies p.formDependencies) := by
    rw [readDependencies_eq]
    exact readsAs_filterMap _
  refine ⟨_, (addTaskFromForm_accepted p h).1, hreads, ?_, ?_, ?_⟩
  · intro hall
    exact readsAs_numerals _ _ hreads hall
  · intro hd
    show readDependencies p.formDependencies = _
    rw [hd]
    decide
  · intro hd
    show readDependencies p.formDependencies = _
    rw [hd]
    decide

/-- C3, at the form "Write report" with dependencies "1, 2,,x,3": the task
stored depends on 1, 2, 3. -/
theorem addTaskFromForm_dependencies_witness :
    trim reportForm.formTitle ≠ "" ∧
      ∃ t, (addTaskFromForm reportForm).builtTasks = reportForm.builtTasks ++ [t] ∧
        t.dependencies = [JsNum.fin 1, JsNum.fin 2, JsNum.fin 3] := by
  refine ⟨by decide, ?_⟩
  obtain ⟨t, ht, _, _, h2, _⟩ := addTaskFromForm_dependencies reportForm (by decide)
  exact ⟨t, ht, h2 rfl⟩

/-- C3 fails as stated: with the field "7, 12abc" the specification keeps 7
only, the piece "12abc" not being numeric, while the list stored is 7, 12; and
with the numeral of 400 digits the list stored holds positive infinity, which
is not an integer. -/
theorem addTaskFromForm_dependencies_loose :
    trim looseDependenciesForm.formTitle ≠ "" ∧
      dependencyList looseDependenciesForm.formDependencies = [7] ∧
      (∃ t, (addTaskFromForm looseDependenciesForm).builtTasks = [t] ∧
        t.dependencies = [JsNum.fin 7, JsNum.fin 12] ∧
        t.dependencies ≠ (dependencyList looseDependenciesForm.formDependencies).map
          (fun k : Int => JsNum.fin (k : ℚ))) ∧
      trim hugeDependencyForm.formTitle ≠ "" ∧
      ∃ t, (addTaskFromForm hugeDependencyForm).builtTasks = [t] ∧
        t.dependencies = [JsNum.posInf] ∧ ¬ JsNum.posInf.IsInteger := by
  have hacc : trim looseDependenciesForm.formTitle ≠ "" := by decide
  have happ := (addTaskFromForm_accepted looseDependenciesForm hacc).1
  have hnil : looseDependenciesForm.builtTasks = [] := rfl
  rw [hnil, List.nil_append] at happ
  have hval : readDependencies looseDependenciesForm.formDependencies =
      [JsNum.fin 7, JsNum.fin 12] := by decide
  have hspec : dependencyList looseDependenciesForm.formDependencies = [7] := by decide
  have hacc2 : trim hugeDependencyForm.formTitle ≠ "" := by decide
  have happ2 := (addTaskFromForm_accepted hugeDependencyForm hacc2).1
  have hnil2 : hugeDependencyForm.builtTasks = [] := rfl
  rw [hnil2, List.nil_append] at happ2
  have hform : hugeDependencyForm.formDependencies = hugeNumeral := rfl
  have hval2 : readDependencies hugeNumeral = [JsNum.posInf] := by
    rw [readDependencies_eq, trimmedPieces_hugeNumeral]
    obtain ⟨k, hk, hbig⟩ := parsedInteger_hugeNumeral
    rw [List.filterMap_cons_some (by rw [hk]; rfl), numberOfInt_overflow k hbig]
    rfl
  refine ⟨hacc, hspec, ⟨_, happ, hval, ?_⟩, hacc2, _, happ2, ?_, ?_⟩
  · show readDependencies looseDependenciesForm.formDependencies ≠ _
    rw [hval, hspec]
    decide
  · dsimp only
    rw [hform]
    exact hval2
  · rintro ⟨j, hj⟩
    exact absurd hj (by simp)

/-- C5: when the title field is empty or white space only, `addTaskFromForm`
shows the alert "Title is required." and changes nothing else: the builder
list, the counter and every form field are as before. -/
theorem addTaskFromForm_blank_title (p : Page)
    (h : ∀ c ∈ p.formTitle.data, isWhiteSpace c = true) :
    addTaskFromForm p = { p with alerts := p.alerts ++ ["Title is required."] } ∧
      (addTaskFromForm p).builtTasks = p.builtTasks ∧
      (addTaskFromForm p).nextLocalId = p.nextLocalId ∧
      (addTaskFromForm p).formTitle = p.formTitle ∧
      (addTaskFromForm p).formDueDate = p.formDueDate ∧
      (addTaskFromForm p).formImportance = p.formImportance ∧
      (addTaskFromForm p).formHours = p.formHours ∧
      (addTaskFromForm p).formDependencies = p.formDependencies := by
  have hrej : addTaskFromForm p = { p with alerts := p.alerts ++ ["Title is required."] } :=
    addTaskFromForm_rejected p ((trim_eq_empty_iff _).2 (trimChars_of_all_ws _ h))
  rw [hrej]
  exact ⟨rfl, rfl, rfl, rfl, rfl, rfl, rfl, rfl⟩

/-- C5, at a form whose title is two blanks and a tab: the call only alerts. -/
theorem addTaskFromForm_blank_title_witness :
    (∀ c ∈ blankTitleForm.formTitle.data, isWhiteSpace c = true) ∧
      (addTaskFromForm blankTitleForm).alerts = ["Title is required."] ∧
      (addTaskFromForm blankTitleForm).builtTasks = [] ∧
      (addTaskFromForm blankTitleForm).nextLocalId = 1 ∧
      (addTaskFromForm blankTitleForm).formImportance = "7" := by
  have hb : ∀ c ∈ blankTitleForm.formTitle.data, isWhiteSpace c = true := by decide
  have h := (addTaskFromForm_blank_title blankTitleForm hb).1
  rw [h]
  exact ⟨hb, rfl, rfl, rfl, rfl⟩

/-! ## Sequences of addTask calls -/

theorem addTask_accepted (p : Page) (f : FormValues) (h : f.accepted = true) :
    ∃ t, t.id = p.nextLocalId ∧ (addTask p f).builtTasks = p.builtTasks ++ [t] ∧
      (addTask p f).nextLocalId = p.nextLocalId + 1 ∧ (addTask p f).alerts = p.alerts := by
  have hne : trim (p.fill f).formTitle ≠ "" := by
    simpa [FormValues.accepted] using h
  obtain ⟨h1, h2⟩ := addTaskFromForm_accepted (p.fill f) hne
  exact ⟨_, rfl, h1, h2, addTaskFromForm_accepted_alerts (p.fill f) hne⟩

theorem addTask_rejected (p : Page) (f : FormValues) (h : f.accepted = false) :
    (addTask p f).builtTasks = p.builtTasks ∧ (addTask p f).nextLocalId = p.nextLocalId ∧
      (addTask p f).alerts = p.alerts ++ ["Title is required."] := by
  have he : trim (p.fill f).formTitle = "" := by
    simpa [FormValues.accepted] using h
  unfold addTask
  rw [addTaskFromForm_rejected (p.fill f) he]
  exact ⟨rfl, rfl, rfl⟩

/-- From any page, a sequence of calls appends consecutive ids starting at the
counter, one for each accepted call, and one alert for each rejected call. -/
theorem addTasks_invariant (fs : List FormValues) (p : Page) :
    (addTasks p fs).builtTasks.map Task.id =
        p.builtTasks.map Task.id ++
          List.range' p.nextLocalId (fs.filter FormValues.accepted).length ∧
      (addTasks p fs).nextLocalId = p.nextLocalId + (fs.filter FormValues.accepted).length ∧
      (addTasks p fs).alerts = p.alerts ++
        List.replicate (fs.filter (fun f => !f.accepted)).length "Title is required." := by
  induction fs generalizing p with
  | nil => simp [addTasks]
  | cons f fs ih =>
    have hstep : addTasks p (f :: fs) = addTasks (addTask p f) fs := rfl
    rw [hstep]
    obtain ⟨ih1, ih2, ih3⟩ := ih (addTask p f)
    cases hacc : f.accepted with
    | true =>
      obtain ⟨t, ht, hb, hn, ha⟩ := addTask_accepted p f hacc
      have hrej : (f :: fs).filter (fun f => !f.accepted) =
          fs.filter (fun f => !f.accepted) := by
        simp [List.filter_cons, hacc]
      rw [ih1, ih2, ih3, hb, hn, ha, List.filter_cons_of_pos hacc, List.length_cons,
        List.range'_succ, List.map_append, List.map_singleton, ht, hrej]
      refine ⟨?_, ?_, rfl⟩
      · simp
      · omega
    | false =>
      obtain ⟨hb, hn, ha⟩ := addTask_rejected p f hacc
      have hf : ¬ (f.accepted = true) := by simp [hacc]
      have hrej : (f :: fs).filter (fun f => !f.accepted) =
          f :: fs.filter (fun f => !f.accepted) := by
        simp [List.filter_cons, hacc]
      rw [ih1, ih2, ih3, hb, hn, ha, List.filter_cons_of_neg hf, hrej, List.length_cons,
        List.replicate_succ]
      refine ⟨rfl, rfl, ?_⟩
      simp

/-- C4: from a page with an empty builder list and the counter at 1, after any
sequence of addTask calls, accepted or rejected, the tasks carry the ids 1, 2,
..., n in list order, where n is the number of accepted calls, and the counter
is n + 1; each rejected call has only added its alert. -/
theorem addTasks_ids (p : Page) (fs : List FormValues) (h0 : p.builtTasks = [])
    (h1 : p.nextLocalId = 1) :
    (addTasks p fs).builtTasks.map Task.id =
        List.range' 1 (fs.filter FormValues.accepted).length ∧
      (addTasks p fs).builtTasks.length = (fs.filter FormValues.accepted).length ∧
      (addTasks p fs).nextLocalId = (fs.filter FormValues.accepted).length + 1 ∧
      (addTasks p fs).alerts = p.alerts ++
        List.replicate (fs.filter (fun f => !f.accepted)).length "Title is required." := by
  obtain ⟨hm, hn, ha⟩ := addTasks_invariant fs p
  rw [h0, h1] at hm
  rw [h1] at hn
  simp only [List.map_nil, List.nil_append] at hm
  refine ⟨hm, ?_, by omega, ha⟩
  have := congrArg List.length hm
  simpa using this

/-- C4, at the loaded page with the calls "A", a blank title, "B": the ids are
1 and 2, the counter is 3, and one alert was shown. -/
theorem addTasks_ids_witness :
    Page.initial.builtTasks = [] ∧ Page.initial.nextLocalId = 1 ∧
      (addTasks Page.initial
        [FormValues.titled "A", FormValues.titled " ", FormValues.titled "B"]).builtTasks.map
          Task.id = [1, 2] ∧
      (addTasks Page.initial
        [FormValues.titled "A", FormValues.titled " ", FormValues.titled "B"]).nextLocalId = 3 ∧
      (addTasks Page.initial
        [FormValues.titled "A", FormValues.titled " ", FormValues.titled "B"]).alerts =
          ["Title is required."] := by
  have h := addTasks_ids Page.initial
    [FormValues.titled "A", FormValues.titled " ", FormValues.titled "B"] rfl rfl
  have hn : ([FormValues.titled "A", FormValues.titled " ", FormValues.titled "B"].filter
      FormValues.accepted).length = 2 := by decide
  have hr : ([FormValues.titled "A", FormValues.titled " ", FormValues.titled "B"].filter
      (fun f => !f.accepted)).length = 1 := by decide
  rw [hn, hr] at h
  exact ⟨rfl, rfl, h.1, h.2.2.1, h.2.2.2⟩

/-! ## Analysis client: lemmas -/

theorem settle_requests (reply : Reply) (sv : String) (p : Page) :
    (settle reply sv p).1.requests = p.requests := by
  unfold settle
  split
  · rfl
  · split
    · rfl
    · split
      · rfl
      · split
        · rfl
        · split <;> rfl

/-- Replacing the builder list commutes with the handling of the reply. -/
theorem settle_builtTasks (reply : Reply) (sv : String) (p : Page) (ts : List Task) :
    settle reply sv { p with builtTasks := ts } =
      ({ (settle reply sv p).1 with builtTasks := ts }, (settle reply sv p).2) := by
  unfold settle
  split
  · rfl
  · split
    · rfl
    · split
      · rfl
      · dsimp only
        split
        · rfl
        · split <;> rfl

/-- The reply is handled to the end (rendered), or the catch block ran. -/
theorem settle_cases (reply : Reply) (sv : String) (p : Page) :
    (settle reply sv p).2 = Outcome.rendered ∨
      ((settle reply sv p).2 = Outcome.serverError ∧
        (settle reply sv p).1.statusMessage = "Error while analyzing tasks." ∧
        (settle reply sv p).1.alerts = p.alerts ++
          ["Failed to analyze tasks. Check if the Django server is running."]) := by
  unfold settle
  split
  · exact Or.inr ⟨rfl, rfl, rfl⟩
  · split
    · exact Or.inr ⟨rfl, rfl, rfl⟩
    · split
      · exact Or.inr ⟨rfl, rfl, rfl⟩
      · split
        · exact Or.inr ⟨rfl, rfl, rfl⟩
        · split
          · exact Or.inr ⟨rfl, rfl, rfl⟩
          · exact Or.inl rfl

/-- A rejected fetch, a status outside 200-299 and a body that is not JSON end
in the catch block before anything is rendered. -/
theorem settle_unrendered (reply : Reply) (sv : String) (p : Page)
    (h : reply = Reply.networkError ∨
      (∃ status body, reply = Reply.http status body ∧ Reply.ok status = false) ∨
      (∃ status, reply = Reply.http status Body.notJson)) :
    (settle reply sv p).2 = Outcome.serverError ∧
      (settle reply sv p).1.resultsContainer = p.resultsContainer := by
  rcases h with h | ⟨status, body, h, hok⟩ | ⟨status, h⟩
  · subst h
    exact ⟨rfl, rfl⟩
  · subst h
    unfold settle
    simp only [hok, Bool.not_false, if_true]
    exact ⟨rfl, rfl⟩
  · subst h
    unfold settle
    dsimp only
    split <;> exact ⟨rfl, rfl⟩

theorem dispatch_requests (reply : Reply) (tasks : TaskList) (p : Page) :
    (dispatch reply tasks p).1.requests = p.requests ++
      [{ method := "POST", url := API_BASE ++ "/analyze/", contentType := "application/json",
         strategy := strategyKey p.strategySelect, tasks := tasks }] := by
  unfold dispatch
  dsimp only
  rw [settle_requests]
  rfl

theorem dispatch_builtTasks (reply : Reply) (tasks : TaskList) (p : Page) (ts : List Task) :
    dispatch reply tasks { p with builtTasks := ts } =
      ({ (dispatch reply tasks p).1 with builtTasks := ts }, (dispatch reply tasks p).2) := by
  exact settle_builtTasks reply p.strategySelect
    { setStatus "Analyzing tasks..." p with
      requests := p.requests ++
        [{ method := "POST", url := API_BASE ++ "/analyze/", contentType := "application/json",
           strategy := strategyKey p.strategySelect, tasks := tasks }] } ts

theorem dispatch_cases (reply : Reply) (tasks : TaskList) (p : Page) :
    (dispatch reply tasks p).2 = Outcome.rendered ∨
      ((dispatch reply tasks p).2 = Outcome.serverError ∧
        (dispatch reply tasks p).1.statusMessage = "Error while analyzing tasks." ∧
        (dispatch reply tasks p).1.alerts = p.alerts ++
          ["Failed to analyze tasks. Check if the Django server is running."]) := by
  unfold dispatch
  dsimp only
  exact settle_cases reply _ _

theorem dispatch_unrendered (reply : Reply) (tasks : TaskList) (p : Page)
    (h : reply = Reply.networkError ∨
      (∃ status body, reply = Reply.http status body ∧ Reply.ok status = false) ∨
      (∃ status, reply = Reply.http status Body.notJson)) :
    (dispatch reply tasks p).2 = Outcome.serverError ∧
      (dispatch reply tasks p).1.resultsContainer = p.resultsContainer := by
  unfold dispatch
  dsimp only
  exact settle_unrendered reply _ _ h

/-- The three ways `handleAnalyzeClick` goes, by the trimmed text area, the
result of parsing it, and the builder list. -/
theorem handleAnalyzeClick_cases (jsonParse : String → Option Json) (reply : Reply)
    (p : Page) :
    (trim p.taskInput ≠ "" ∧ jsonParse (trim p.taskInput) = none ∧
        handleAnalyzeClick jsonParse reply p =
          ({ p with
             console := p.console ++ [LoggedError.syntaxError]
             alerts := p.alerts ++ ["Invalid JSON. Please check your format."] },
           Outcome.invalidInput)) ∨
      (trim p.taskInput = "" ∧ p.builtTasks = [] ∧
        handleAnalyzeClick jsonParse reply p =
          ({ p with alerts := p.alerts ++
              ["Please either paste JSON tasks or add at least one task using the form."] },
           Outcome.noInput)) ∨
      (∃ v, trim p.taskInput ≠ "" ∧ jsonParse (trim p.taskInput) = some v ∧
        handleAnalyzeClick jsonParse reply p = dispatch reply (TaskList.parsed v) p) ∨
      (trim p.taskInput = "" ∧ p.builtTasks ≠ [] ∧
        handleAnalyzeClick jsonParse reply p = dispatch reply (TaskList.built p.builtTasks) p) := by
  unfold handleAnalyzeClick
  dsimp only
  by_cases hraw : trim p.taskInput = ""
  · have hne : ¬ (trim p.taskInput ≠ "") := fun h => h hraw
    rw [if_neg hne]
    by_cases hb : p.builtTasks = []
    · have hlen : ¬ (p.builtTasks.length > 0) := by simp [hb]
      rw [if_neg hlen]
      exact Or.inr (Or.inl ⟨hraw, hb, rfl⟩)
    · have hlen : p.builtTasks.length > 0 := List.length_pos.2 hb
      rw [if_pos hlen]
      exact Or.inr (Or.inr (Or.inr ⟨hraw, hb, rfl⟩))
  · rw [if_pos hraw]
    cases hp : jsonParse (trim p.taskInput) with
    | none => exact Or.inl ⟨hraw, rfl, rfl⟩
    | some v => exact Or.inr (Or.inr (Or.inl ⟨v, hraw, rfl, rfl⟩))

/-! ## Analysis client: the claims -/

/-- C6: the request `handleAnalyzeClick` sends carries the strategy "fastest"
for the label "quick", "high_impact" for "impact", "deadline" for "deadline",
and "smart_balance" for every other label, the empty one included. -/
theorem handleAnalyzeClick_strategy (jsonParse : String → Option Json) (reply : Reply)
    (p : Page) (r : Request)
    (h : (handleAnalyzeClick jsonParse reply p).1.requests = p.requests ++ [r]) :
    (p.strategySelect = "quick" → r.strategy = "fastest") ∧
      (p.strategySelect = "impact" → r.strategy = "high_impact") ∧
      (p.strategySelect = "deadline" → r.strategy = "deadline") ∧
      (p.strategySelect ≠ "quick" → p.strategySelect ≠ "impact" →
        p.strategySelect ≠ "deadline" → r.strategy = "smart_balance") := by
  have hkey : r.strategy = strategyKey p.strategySelect := by
    rcases handleAnalyzeClick_cases jsonParse reply p with
      ⟨_, _, he⟩ | ⟨_, _, he⟩ | ⟨v, _, _, he⟩ | ⟨_, _, he⟩
    · rw [he] at h
      exact absurd (List.self_eq_append_right.1 h) (by simp)
    · rw [he] at h
      exact absurd (List.self_eq_append_right.1 h) (by simp)
    · rw [he, dispatch_requests] at h
      have := List.append_cancel_left h
      simp only [List.cons.injEq, and_true] at this
      rw [← this]
    · rw [he, dispatch_requests] at h
      have := List.append_cancel_left h
      simp only [List.cons.injEq, and_true] at this
      rw [← this]
  rw [hkey]
  unfold strategyKey
  refine ⟨?_, ?_, ?_, ?_⟩
  · intro hq
    rw [hq]
    decide
  · intro hq
    rw [hq]
    decide
  · intro hq
    rw [hq]
    decide
  · intro h1 h2 h3
    rw [if_neg h1, if_neg h2, if_neg h3]

/-- C6, at a page with one built task and the label "quick": the request sent
carries the strategy "fastest". -/
theorem handleAnalyzeClick_strategy_witness :
    ∃ r, (handleAnalyzeClick parseEmptyArray Reply.networkError quickPage).1.requests =
        quickPage.requests ++ [r] ∧ r.strategy = "fastest" := by
  have hreq : (handleAnalyzeClick parseEmptyArray Reply.networkError quickPage).1.requests =
      quickPage.requests ++
        [{ method := "POST", url := API_BASE ++ "/analyze/", contentType := "application/json",
           strategy := "fastest", tasks := TaskList.built [sampleTask] }] := by
    rcases handleAnalyzeClick_cases parseEmptyArray Reply.networkError quickPage with
      ⟨hn, _, _⟩ | ⟨_, hb, _⟩ | ⟨_, hn, _, _⟩ | ⟨_, _, he⟩
    · exact absurd (by decide) hn
    · exact absurd hb (by decide)
    · exact absurd (by decide) hn
    · rw [he, dispatch_requests]
      rfl
  exact ⟨_, hreq,
    (handleAnalyzeClick_strategy parseEmptyArray Reply.networkError quickPage _ hreq).1 rfl⟩

/-- C7, as the code has it: when the text area holds something besides white
space, replacing the builder list changes nothing in what `handleAnalyzeClick`
does but the builder list itself: same outcome, same requests, same status,
results, alerts and log; and a request that is sent carries the value parsed
from the trimmed text. -/
theorem handleAnalyzeClick_ignores_builder (jsonParse : String → Option Json) (reply : Reply)
    (p : Page) (ts : List Task) (h : trim p.taskInput ≠ "") :
    handleAnalyzeClick jsonParse reply { p with builtTasks := ts } =
        ({ (handleAnalyzeClick jsonParse reply p).1 with builtTasks := ts },
         (handleAnalyzeClick jsonParse reply p).2) ∧
      (handleAnalyzeClick jsonParse reply { p with builtTasks := ts }).2 =
        (handleAnalyzeClick jsonParse reply p).2 ∧
      (handleAnalyzeClick jsonParse reply { p with builtTasks := ts }).1.requests =
        (handleAnalyzeClick jsonParse reply p).1.requests ∧
      ((handleAnalyzeClick jsonParse reply p).1.requests = p.requests ∨
        ∃ v, jsonParse (trim p.taskInput) = some v ∧
          (handleAnalyzeClick jsonParse reply p).1.requests = p.requests ++
            [{ method := "POST", url := API_BASE ++ "/analyze/",
               contentType := "application/json",
               strategy := strategyKey p.strategySelect, tasks := TaskList.parsed v }]) := by
  have hmain : handleAnalyzeClick jsonParse reply { p with builtTasks := ts } =
      ({ (handleAnalyzeClick jsonParse reply p).1 with builtTasks := ts },
       (handleAnalyzeClick jsonParse reply p).2) := by
    cases hp : jsonParse (trim p.taskInput) with
    | none =>
      have e1 : handleAnalyzeClick jsonParse reply { p with builtTasks := ts } =
          ({ p with
             builtTasks := ts
             console := p.console ++ [LoggedError.syntaxError]
             alerts := p.alerts ++ ["Invalid JSON. Please check your format."] },
           Outcome.invalidInput) := by
        unfold handleAnalyzeClick
        dsimp only
        rw [if_pos h, hp]
      have e2 : handleAnalyzeClick jsonParse reply p =
          ({ p with
             console := p.console ++ [LoggedError.syntaxError]
             alerts := p.alerts ++ ["Invalid JSON. Please check your format."] },
           Outcome.invalidInput) := by
        unfold handleAnalyzeClick
        dsimp only
        rw [if_pos h, hp]
      rw [e1, e2]
    | some v =>
      have e1 : handleAnalyzeClick jsonParse reply { p with builtTasks := ts } =
          dispatch reply (TaskList.parsed v) { p with builtTasks := ts } := by
        unfold handleAnalyzeClick
        dsimp only
        rw [if_pos h, hp]
      have e2 : handleAnalyzeClick jsonParse reply p = dispatch reply (TaskList.parsed v) p := by
        unfold handleAnalyzeClick
        dsimp only
        rw [if_pos h, hp]
      rw [e1, e2]
      exact dispatch_builtTasks reply _ p ts
  refine ⟨hmain, ?_, ?_, ?_⟩
  · rw [hmain]
  · rw [hmain]
  · rcases handleAnalyzeClick_cases jsonParse reply p with
      ⟨_, _, he⟩ | ⟨hn, _, _⟩ | ⟨v, _, hv, he⟩ | ⟨hn, _, _⟩
    · left
      rw [he]
    · exact absurd hn h
    · right
      exact ⟨v, hv, by rw [he, dispatch_requests]⟩
    · exact absurd hn h

/-- C7, at a page whose text area holds `[]` between blanks: with one task put
in the builder list, the click ends as with none. -/
theorem handleAnalyzeClick_ignores_builder_witness :
    trim pastedPage.taskInput ≠ "" ∧
      (handleAnalyzeClick parseEmptyArray Reply.networkError
          { pastedPage with builtTasks := [sampleTask] }).2 =
        (handleAnalyzeClick parseEmptyArray Reply.networkError pastedPage).2 ∧
      (handleAnalyzeClick parseEmptyArray Reply.networkError
          { pastedPage with builtTasks := [sampleTask] }).1.requests =
        (handleAnalyzeClick parseEmptyArray Reply.networkError pastedPage).1.requests := by
  have h := handleAnalyzeClick_ignores_builder parseEmptyArray Reply.networkError pastedPage
    [sampleTask] (by decide)
  exact ⟨by decide, h.2.1, h.2.2.1⟩

/-- C7 fails as stated: the text area holding one blank is not empty, yet with
an empty builder list the click ends in NoInput and sends nothing, and with one
task in the builder list it sends that task; this whatever `JSON.parse` is and
however the request settles. -/
theorem handleAnalyzeClick_blank_text_area :
    blankTextPage.taskInput ≠ "" ∧
      ∀ (jsonParse : String → Option Json) (reply : Reply),
        (handleAnalyzeClick jsonParse reply { blankTextPage with builtTasks := [] }).2 =
            Outcome.noInput ∧
          (handleAnalyzeClick jsonParse reply { blankTextPage with builtTasks := [] }).1.requests
            = [] ∧
          (handleAnalyzeClick jsonParse reply blankTextPage).2 ≠ Outcome.noInput ∧
          (handleAnalyzeClick jsonParse reply blankTextPage).1.requests =
            [{ method := "POST", url := API_BASE ++ "/analyze/",
               contentType := "application/json",
               strategy := "smart_balance", tasks := TaskList.built [sampleTask] }] := by
  refine ⟨by decide, ?_⟩
  intro jsonParse reply
  refine ⟨rfl, rfl, ?_, ?_⟩
  · rcases handleAnalyzeClick_cases jsonParse reply blankTextPage with
      ⟨hn, _, _⟩ | ⟨_, hb, _⟩ | ⟨_, hn, _, _⟩ | ⟨_, _, he⟩
    · exact absurd (by decide) hn
    · exact absurd hb (by decide)
    · exact absurd (by decide) hn
    · rw [he]
      rcases dispatch_cases reply (TaskList.built blankTextPage.builtTasks) blankTextPage with
        hr | ⟨hr, _⟩ <;> rw [hr] <;> decide
  · rcases handleAnalyzeClick_cases jsonParse reply blankTextPage with
      ⟨hn, _, _⟩ | ⟨_, hb, _⟩ | ⟨_, hn, _, _⟩ | ⟨_, _, he⟩
    · exact absurd (by decide) hn
    · exact absurd hb (by decide)
    · exact absurd (by decide) hn
    · rw [he, dispatch_requests]
      rfl

/-- C8, as the code has it: when the trimmed text area is not empty and does not
parse, or is empty while the builder list is empty, `handleAnalyzeClick` alerts,
sends no request and leaves the status and the results as they were; in every
other case it sends exactly one POST whose body holds the mapped strategy and
the tasks, the value parsed from the trimmed text or the builder list, and ends
rendered or in the server-error path. -/
theorem handleAnalyzeClick_request (jsonParse : String → Option Json) (reply : Reply)
    (p : Page) :
    (trim p.taskInput ≠ "" → jsonParse (trim p.taskInput) = none →
        (handleAnalyzeClick jsonParse reply p).2 = Outcome.invalidInput ∧
        (handleAnalyzeClick jsonParse reply p).1.alerts =
          p.alerts ++ ["Invalid JSON. Please check your format."] ∧
        (handleAnalyzeClick jsonParse reply p).1.requests = p.requests ∧
        (handleAnalyzeClick jsonParse reply p).1.statusMessage = p.statusMessage ∧
        (handleAnalyzeClick jsonParse reply p).1.resultsContainer = p.resultsContainer) ∧
      (trim p.taskInput = "" → p.builtTasks = [] →
        (handleAnalyzeClick jsonParse reply p).2 = Outcome.noInput ∧
        (handleAnalyzeClick jsonParse reply p).1.alerts = p.alerts ++
          ["Please either paste JSON tasks or add at least one task using the form."] ∧
        (handleAnalyzeClick jsonParse reply p).1.requests = p.requests ∧
        (handleAnalyzeClick jsonParse reply p).1.statusMessage = p.statusMessage ∧
        (handleAnalyzeClick jsonParse reply p).1.resultsContainer = p.resultsContainer) ∧
      (∀ v, trim p.taskInput ≠ "" → jsonParse (trim p.taskInput) = some v →
        (handleAnalyzeClick jsonParse reply p).1.requests = p.requests ++
          [{ method := "POST", url := API_BASE ++ "/analyze/",
             contentType := "application/json",
             strategy := strategyKey p.strategySelect, tasks := TaskList.parsed v }] ∧
        ((handleAnalyzeClick jsonParse reply p).2 = Outcome.rendered ∨
          (handleAnalyzeClick jsonParse reply p).2 = Outcome.serverError)) ∧
      (trim p.taskInput = "" → p.builtTasks ≠ [] →
        (handleAnalyzeClick jsonParse reply p).1.requests = p.requests ++
          [{ method := "POST", url := API_BASE ++ "/analyze/",
             contentType := "application/json",
             strategy := strategyKey p.strategySelect,
             tasks := TaskList.built p.builtTasks }] ∧
        ((handleAnalyzeClick jsonParse reply p).2 = Outcome.rendered ∨
          (handleAnalyzeClick jsonParse reply p).2 = Outcome.serverError)) := by
  refine ⟨?_, ?_, ?_, ?_⟩
  · intro hraw hp
    rcases handleAnalyzeClick_cases jsonParse reply p with
      ⟨_, _, he⟩ | ⟨hn, _, _⟩ | ⟨v, _, hv, _⟩ | ⟨hn, _, _⟩
    · rw [he]
      exact ⟨rfl, rfl, rfl, rfl, rfl⟩
    · exact absurd hn hraw
    · rw [hp] at hv
      exact absurd hv (by simp)
    · exact absurd hn hraw
  · intro hraw hb
    rcases handleAnalyzeClick_cases jsonParse reply p with
      ⟨hn, _, _⟩ | ⟨_, _, he⟩ | ⟨v, hn, _, _⟩ | ⟨_, hn, _⟩
    · exact absurd hraw hn
    · rw [he]
      exact ⟨rfl, rfl, rfl, rfl, rfl⟩
    · exact absurd hraw hn
    · exact absurd hb hn
  · intro v hraw hp
    rcases handleAnalyzeClick_cases jsonParse reply p with
      ⟨_, hn, _⟩ | ⟨hn, _, _⟩ | ⟨w, _, hw, he⟩ | ⟨hn, _, _⟩
    · rw [hp] at hn
      exact absurd hn (by simp)
    · exact absurd hn hraw
    · rw [hp] at hw
      injection hw with hw
      subst hw
      rw [he, dispatch_requests]
      refine ⟨rfl, ?_⟩
      rcases dispatch_cases reply (TaskList.parsed v) p with hr | ⟨hr, _⟩
      · exact Or.inl hr
      · exact Or.inr hr
    · exact absurd hn hraw
  · intro hraw hb
    rcases handleAnalyzeClick_cases jsonParse reply p with
      ⟨hn, _, _⟩ | ⟨_, hn, _⟩ | ⟨v, hn, _, _⟩ | ⟨_, _, he⟩
    · exact absurd hraw hn
    · exact absurd hn hb
    · exact absurd hraw hn
    · rw [he, dispatch_requests]
      refine ⟨rfl, ?_⟩
      rcases dispatch_cases reply (TaskList.built p.builtTasks) p with hr | ⟨hr, _⟩
      · exact Or.inl hr
      · exact Or.inr hr

/-- C8, at a page whose text area holds `[]` between blanks and at the loaded
page: the first click sends one request carrying the parsed value, the second
alerts and sends none. -/
theorem handleAnalyzeClick_request_witness :
    (handleAnalyzeClick parseEmptyArray Reply.networkError pastedPage).1.requests =
        [{ method := "POST", url := API_BASE ++ "/analyze/",
           contentType := "application/json",
           strategy := "smart_balance", tasks := TaskList.parsed (Json.arr []) }] ∧
      (handleAnalyzeClick parseEmptyArray Reply.networkError Page.initial).2 =
        Outcome.noInput ∧
      (handleAnalyzeClick parseEmptyArray Reply.networkError Page.initial).1.requests = [] := by
  have hparse : parseEmptyArray (trim pastedPage.taskInput) = some (Json.arr []) := by
    have ht : trim pastedPage.taskInput = "[]" := by decide
    rw [ht]
    unfold parseEmptyArray
    rw [if_pos rfl]
  have h1 := (handleAnalyzeClick_request parseEmptyArray Reply.networkError pastedPage).2.2.1
    (Json.arr []) (by decide) hparse
  have h2 := (handleAnalyzeClick_request parseEmptyArray Reply.networkError Page.initial).2.1
    (by decide) rfl
  exact ⟨h1.1, h2.1, h2.2.2.1⟩

/-- C8 fails as stated: a text area holding a tab and a line break is not
empty and is not JSON; yet with one task in the builder list the click sends
that task and reports no invalid input, and with an empty builder list it sends
nothing and ends in NoInput; this whatever `JSON.parse` is and however the
request settles. -/
theorem handleAnalyzeClick_blank_lines :
    blankLinesPage.taskInput ≠ "" ∧
      ∀ (jsonParse : String → Option Json) (reply : Reply),
        (handleAnalyzeClick jsonParse reply blankLinesPage).1.requests =
            [{ method := "POST", url := API_BASE ++ "/analyze/",
               contentType := "application/json",
               strategy := "smart_balance", tasks := TaskList.built [sampleTask] }] ∧
          (handleAnalyzeClick jsonParse reply blankLinesPage).2 ≠ Outcome.invalidInput ∧
          (handleAnalyzeClick jsonParse reply blankLinesPage).2 ≠ Outcome.noInput ∧
          (handleAnalyzeClick jsonParse reply { blankLinesPage with builtTasks := [] }).2 =
            Outcome.noInput ∧
          (handleAnalyzeClick jsonParse reply
            { blankLinesPage with builtTasks := [] }).1.requests = [] := by
  refine ⟨by decide, ?_⟩
  intro jsonParse reply
  rcases handleAnalyzeClick_cases jsonParse reply blankLinesPage with
    ⟨hn, _, _⟩ | ⟨_, hb, _⟩ | ⟨_, hn, _, _⟩ | ⟨_, _, he⟩
  · exact absurd (by decide) hn
  · exact absurd hb (by decide)
  · exact absurd (by decide) hn
  · rw [he, dispatch_requests]
    refine ⟨rfl, ?_⟩
    rcases dispatch_cases reply (TaskList.built blankLinesPage.builtTasks) blankLinesPage with
      hr | ⟨hr, _⟩ <;> rw [hr] <;> exact ⟨by decide, by decide, rfl, rfl⟩

/-! ## Rendering: the claims -/

theorem forEachCard_map_some (ts : List ScoredTask) (index : Nat) (container : List Node) :
    forEachCard (ts.map some) index container = (container ++ cardsFrom index ts, none) := by
  induction ts generalizing index container with
  | nil => simp [forEachCard, cardsFrom]
  | cons t ts ih =>
    rw [List.map_cons]
    unfold forEachCard cardsFrom
    rw [ih, List.append_assoc]
    rfl

theorem cardsFrom_length (index : Nat) (ts : List ScoredTask) :
    (cardsFrom index ts).length = ts.length := by
  induction ts generalizing index with
  | nil => rfl
  | cons t ts ih =>
    unfold cardsFrom
    rw [List.length_cons, List.length_cons, ih]

theorem cardsFrom_getElem? (index : Nat) (ts : List ScoredTask) (i : Nat) (hi : i < ts.length) :
    (cardsFrom index ts)[i]? = some (Node.card (renderCard ts[i] (index + i))) := by
  induction ts generalizing index i with
  | nil => exact absurd hi (by simp)
  | cons t ts ih =>
    unfold cardsFrom
    cases i with
    | zero => simp
    | succ j =>
      have hj : j < ts.length := by simpa using hi
      rw [List.getElem?_cons_succ, ih (index + 1) j hj]
      simp only [List.getElem_cons_succ]
      have : index + 1 + j = index + (j + 1) := by omega
      rw [this]

theorem badge_high (q : ℚ) (h : 120 ≤ q) :
    getPriorityBadgeClass (scoreOrZero (some (JsNum.fin q))) = "badge-high" := by
  have h0 : q ≠ 0 := by
    intro h0
    rw [h0] at h
    norm_num at h
  simp [getPriorityBadgeClass, scoreOrZero, JsNum.truthy, JsNum.ge, h0, h]

theorem badge_medium (q : ℚ) (h : 80 ≤ q) (h2 : q < 120) :
    getPriorityBadgeClass (scoreOrZero (some (JsNum.fin q))) = "badge-medium" := by
  have h0 : q ≠ 0 := by
    intro h0
    rw [h0] at h
    norm_num at h
  have h3 : ¬ (120 ≤ q) := not_le.2 h2
  simp [getPriorityBadgeClass, scoreOrZero, JsNum.truthy, JsNum.ge, h0, h, h3]

theorem badge_low (q : ℚ) (h : q < 80) :
    getPriorityBadgeClass (scoreOrZero (some (JsNum.fin q))) = "badge-low" := by
  have h3 : ¬ (120 ≤ q) := by
    intro h4
    linarith
  have h4 : ¬ (80 ≤ q) := not_le.2 h
  by_cases h0 : q = 0
  · subst h0
    simp [getPriorityBadgeClass, scoreOrZero, JsNum.truthy, JsNum.ge, h3, h4]
  · simp [getPriorityBadgeClass, scoreOrZero, JsNum.truthy, JsNum.ge, h0, h3, h4]

theorem badge_absent : getPriorityBadgeClass (scoreOrZero none) = "badge-low" := by
  have h3 : ¬ ((120 : ℚ) ≤ 0) := by norm_num
  have h4 : ¬ ((80 : ℚ) ≤ 0) := by norm_num
  simp [getPriorityBadgeClass, scoreOrZero, JsNum.ge, h3, h4]

theorem badge_posInf :
    getPriorityBadgeClass (scoreOrZero (some JsNum.posInf)) = "badge-high" := by
  simp [getPriorityBadgeClass, scoreOrZero, JsNum.truthy, JsNum.ge]

theorem badge_negInf :
    getPriorityBadgeClass (scoreOrZero (some JsNum.negInf)) = "badge-low" := by
  simp [getPriorityBadgeClass, scoreOrZero, JsNum.truthy, JsNum.ge]

theorem badge_nan : getPriorityBadgeClass (scoreOrZero (some JsNum.nan)) = "badge-low" := by
  have h3 : ¬ ((120 : ℚ) ≤ 0) := by norm_num
  have h4 : ¬ ((80 : ℚ) ≤ 0) := by norm_num
  simp [getPriorityBadgeClass, scoreOrZero, JsNum.truthy, JsNum.ge, h3, h4]

/-- C9: for a non-empty sequence of scored tasks `renderResults` throws nothing
and leaves exactly one card per task, in order, and no placeholder.  The card at
index `i` is titled with the position `i + 1`, a dot, and the title of the task,
or "Untitled Task" when the title is absent or empty; its badge class is high
for a score of at least 120, positive infinity included, medium from 80 up to
120, and low otherwise: below 80, negative infinity, NaN, or no score. -/
theorem renderResults_cards (ts : List ScoredTask) (old : List Node) (h : ts ≠ []) :
    (renderResults (Payload.array (ts.map some)) old).2 = none ∧
      (renderResults (Payload.array (ts.map some)) old).1.length = ts.length ∧
      ∀ (i : Nat) (hi : i < ts.length),
        (renderResults (Payload.array (ts.map some)) old).1[i]? =
            some (Node.card (renderCard ts[i] i)) ∧
          (renderCard ts[i] i).title = toString (i + 1) ++ ". " ++
            (match ts[i].title with
              | some s => if s = "" then "Untitled Task" else s
              | none => "Untitled Task") ∧
          (∀ q, ts[i].score = some (JsNum.fin q) → 120 ≤ q →
            (renderCard ts[i] i).badgeClass = "badge badge-high") ∧
          (∀ q, ts[i].score = some (JsNum.fin q) → 80 ≤ q → q < 120 →
            (renderCard ts[i] i).badgeClass = "badge badge-medium") ∧
          (∀ q, ts[i].score = some (JsNum.fin q) → q < 80 →
            (renderCard ts[i] i).badgeClass = "badge badge-low") ∧
          (ts[i].score = none → (renderCard ts[i] i).badgeClass = "badge badge-low") ∧
          (ts[i].score = some JsNum.posInf →
            (renderCard ts[i] i).badgeClass = "badge badge-high") ∧
          (ts[i].score = some JsNum.negInf →
            (renderCard ts[i] i).badgeClass = "badge badge-low") ∧
          (ts[i].score = some JsNum.nan →
            (renderCard ts[i] i).badgeClass = "badge badge-low") := by
  have hlen : ¬ ((ts.map some).length = 0) := by
    rw [List.length_map]
    exact fun h0 => h (List.length_eq_zero.1 h0)
  have hrender : renderResults (Payload.array (ts.map some)) old = (cardsFrom 0 ts, none) := by
    unfold renderResults
    dsimp only
    rw [if_neg hlen, forEachCard_map_some, List.nil_append]
  rw [hrender]
  refine ⟨rfl, cardsFrom_length 0 ts, ?_⟩
  intro i hi
  refine ⟨?_, ?_, ?_, ?_, ?_, ?_, ?_, ?_, ?_⟩
  · have := cardsFrom_getElem? 0 ts i hi
    rw [Nat.zero_add] at this
    exact this
  · show toString (i + 1) ++ ". " ++ orElseText ts[i].title "Untitled Task" = _
    congr 1
    unfold orElseText
    cases ts[i].title with
    | none => rfl
    | some s =>
      by_cases hs : s = ""
      · simp [hs]
      · simp [hs]
  · intro q hq h120
    show "badge " ++ getPriorityBadgeClass (scoreOrZero ts[i].score) = _
    rw [hq, badge_high q h120]
    rfl
  · intro q hq h80 h120
    show "badge " ++ getPriorityBadgeClass (scoreOrZero ts[i].score) = _
    rw [hq, badge_medium q h80 h120]
    rfl
  · intro q hq h80
    show "badge " ++ getPriorityBadgeClass (scoreOrZero ts[i].score) = _
    rw [hq, badge_low q h80]
    rfl
  · intro hq
    show "badge " ++ getPriorityBadgeClass (scoreOrZero ts[i].score) = _
    rw [hq, badge_absent]
    rfl
  · intro hq
    show "badge " ++ getPriorityBadgeClass (scoreOrZero ts[i].score) = _
    rw [hq, badge_posInf]
    rfl
  · intro hq
    show "badge " ++ getPriorityBadgeClass (scoreOrZero ts[i].score) = _
    rw [hq, badge_negInf]
    rfl
  · intro hq
    show "badge " ++ getPriorityBadgeClass (scoreOrZero ts[i].score) = _
    rw [hq, badge_nan]
    rfl

/-- C9, at the sequence `{title: "A", score: 150}`, `{score: 50}`: two cards,
the first with class high, the second with class low and titled "2. Untitled
Task". -/
theorem renderResults_cards_witness :
    [scoredA, scoredUntitled] ≠ [] ∧
      (renderResults (Payload.array ([scoredA, scoredUntitled].map some)) []).1.length = 2 ∧
      ∃ first second,
        (renderResults (Payload.array ([scoredA, scoredUntitled].map some)) []).1[0]? =
            some (Node.card first) ∧
          (renderResults (Payload.array ([scoredA, scoredUntitled].map some)) []).1[1]? =
            some (Node.card second) ∧
          first.title = "1. A" ∧ first.badgeClass = "badge badge-high" ∧
          second.title = "2. Untitled Task" ∧ second.badgeClass = "badge badge-low" := by
  have h := renderResults_cards [scoredA, scoredUntitled] [] (by simp)
  obtain ⟨_, hlen, hcards⟩ := h
  obtain ⟨h0, ht0, hhigh, _, _, _, _, _, _⟩ := hcards 0 (by simp)
  obtain ⟨h1, ht1, _, _, hlow, _, _, _, _⟩ := hcards 1 (by simp)
  refine ⟨by simp, hlen, _, _, h0, h1, ?_, ?_, ?_, ?_⟩
  · rw [ht0]
    decide
  · exact hhigh 150 rfl (by norm_num)
  · rw [ht1]
    decide
  · exact hlow 50 rfl (by norm_num)

/-- C10, as the code has it: whenever `handleAnalyzeClick` ends in the
server-error path the status reads "Error while analyzing tasks." and the
failure alert is shown; and when the cause is a rejected fetch, a status outside
200-299, or a body that is not JSON, the results container holds what it held
before the click. -/
theorem handleAnalyzeClick_serverError (jsonParse : String → Option Json) (reply : Reply)
    (p : Page) (h : (handleAnalyzeClick jsonParse reply p).2 = Outcome.serverError) :
    (handleAnalyzeClick jsonParse reply p).1.statusMessage = "Error while analyzing tasks." ∧
      (handleAnalyzeClick jsonParse reply p).1.alerts = p.alerts ++
        ["Failed to analyze tasks. Check if the Django server is running."] ∧
      ((reply = Reply.networkError ∨
          (∃ status body, reply = Reply.http status body ∧ Reply.ok status = false) ∨
          (∃ status, reply = Reply.http status Body.notJson)) →
        (handleAnalyzeClick jsonParse reply p).1.resultsContainer = p.resultsContainer) := by
  rcases handleAnalyzeClick_cases jsonParse reply p with
    ⟨_, _, he⟩ | ⟨_, _, he⟩ | ⟨v, _, _, he⟩ | ⟨_, _, he⟩
  · rw [he] at h
    simp at h
  · rw [he] at h
    simp at h
  · rw [he] at h ⊢
    rcases dispatch_cases reply (TaskList.parsed v) p with hr | ⟨_, hs, ha⟩
    · rw [hr] at h
      exact absurd h (by decide)
    · exact ⟨hs, ha, fun hc => (dispatch_unrendered reply _ p hc).2⟩
  · rw [he] at h ⊢
    rcases dispatch_cases reply (TaskList.built p.builtTasks) p with hr | ⟨_, hs, ha⟩
    · rw [hr] at h
      exact absurd h (by decide)
    · exact ⟨hs, ha, fun hc => (dispatch_unrendered reply _ p hc).2⟩

/-- C10, at a page showing an earlier placeholder, on a reply with status 500:
the click ends in the server-error path, the status is the error text and the
placeholder is still there. -/
theorem handleAnalyzeClick_serverError_witness :
    (handleAnalyzeClick parseEmptyArray (Reply.http 500 Body.notJson) shownPage).2 =
        Outcome.serverError ∧
      (handleAnalyzeClick parseEmptyArray (Reply.http 500 Body.notJson) shownPage).1.statusMessage
        = "Error while analyzing tasks." ∧
      (handleAnalyzeClick parseEmptyArray
          (Reply.http 500 Body.notJson) shownPage).1.resultsContainer =
        [Node.placeholder "No tasks to display."] := by
  have hout : (handleAnalyzeClick parseEmptyArray (Reply.http 500 Body.notJson) shownPage).2 =
      Outcome.serverError := by
    rcases handleAnalyzeClick_cases parseEmptyArray (Reply.http 500 Body.notJson) shownPage with
      ⟨hn, _, _⟩ | ⟨_, hb, _⟩ | ⟨_, hn, _, _⟩ | ⟨_, _, he⟩
    · exact absurd (by decide) hn
    · exact absurd hb (by decide)
    · exact absurd (by decide) hn
    · rw [he]
      exact (dispatch_unrendered _ _ _ (Or.inr (Or.inl ⟨500, Body.notJson, rfl, by decide⟩))).1
  have h := handleAnalyzeClick_serverError parseEmptyArray (Reply.http 500 Body.notJson)
    shownPage hout
  exact ⟨hout, h.1, h.2.2 (Or.inr (Or.inl ⟨500, Body.notJson, rfl, by decide⟩))⟩

/-- C10 fails as stated: on a reply with status 200 whose body is the array of
`{title: "A", score: 150}` and `null`, the click ends in the server-error path
with the error status, yet the placeholder shown before is gone and the card of
the first entry is in the results container. -/
theorem handleAnalyzeClick_serverError_after_render :
    shownPage.resultsContainer = [Node.placeholder "No tasks to display."] ∧
      ∀ jsonParse : String → Option Json,
        (handleAnalyzeClick jsonParse
            (Reply.http 200 (Body.json (Payload.array [some scoredA, none]))) shownPage).2 =
          Outcome.serverError ∧
        (handleAnalyzeClick jsonParse
            (Reply.http 200 (Body.json (Payload.array [some scoredA, none])))
            shownPage).1.statusMessage = "Error while analyzing tasks." ∧
        (handleAnalyzeClick jsonParse
            (Reply.http 200 (Body.json (Payload.array [some scoredA, none])))
            shownPage).1.resultsContainer = [Node.card (renderCard scoredA 0)] ∧
        (handleAnalyzeClick jsonParse
            (Reply.http 200 (Body.json (Payload.array [some scoredA, none])))
            shownPage).1.resultsContainer ≠ shownPage.resultsContainer := by
  refine ⟨rfl, ?_⟩
  intro jsonParse
  have he : handleAnalyzeClick jsonParse
      (Reply.http 200 (Body.json (Payload.array [some scoredA, none]))) shownPage =
      dispatch (Reply.http 200 (Body.json (Payload.array [some scoredA, none])))
        (TaskList.built shownPage.builtTasks) shownPage := by
    rcases handleAnalyzeClick_cases jsonParse
        (Reply.http 200 (Body.json (Payload.array [some scoredA, none]))) shownPage with
      ⟨hn, _, _⟩ | ⟨_, hb, _⟩ | ⟨_, hn, _, _⟩ | ⟨_, _, he⟩
    · exact absurd (by decide) hn
    · exact absurd hb (by decide)
    · exact absurd (by decide) hn
    · exact he
  rw [he]
  refine ⟨rfl, rfl, rfl, ?_⟩
  intro hc
  have hlist : [Node.card (renderCard scoredA 0)] = [Node.placeholder "No tasks to display."] :=
    hc
  simp at hlist

end TaskAnalyzer
